import Mathlib

/-!
Verification development for the chatgpt-telegram-bot repository.

The Python sources under `src/bot/` (command_handlers.py, message_handlers.py,
plugin_manager.py, setup_helpers.py, telegram_bot.py) are shallowly embedded
below.  Python strings are modelled as `List Char`, Python dicts as association
lists, handler side effects (messages sent/edited/deleted, sleeps, backend
calls, usage recording) as an explicit action trace, and network/backend
failures as explicit outcome oracles supplied in an environment record.
Helpers that live in files of the repository not present under `src/`
(`utils.py`, `usage_tracker.py`, `openai_helper.py`) are modelled from the
specification and carry a doc comment saying so.
-/

/-- Python strings are modelled as lists of characters. -/
abbrev PyStr := List Char

/-- Coerce a Lean string literal to the `PyStr` model. -/
def pystr (s : String) : PyStr := s.data

/-- Python `str.lower()`. -/
def pyLower (s : PyStr) : PyStr := s.map Char.toLower

/-- Python `str.strip()`: remove leading and trailing whitespace. -/
def pyStrip (s : PyStr) : PyStr :=
  ((s.dropWhile Char.isWhitespace).reverse.dropWhile Char.isWhitespace).reverse

/-- Python `s.startswith(p)`. -/
def pyStartsWith (s p : PyStr) : Bool := List.isPrefixOf p s

/-- Python `s.split(sep)` for a one-character separator. -/
def pySplit (s : PyStr) (sep : Char) : List PyStr := s.splitOn sep

/-- Python `str(n)` for a non-negative integer. -/
def pyStr (n : Nat) : PyStr := (toString n).data

/-- Python `s[:n]`. -/
def pyTake (n : Nat) (s : PyStr) : PyStr := s.take n

/-- Python `abs(a - b)` on integer lengths. -/
def intAbs (a b : Nat) : Nat := max a b - min a b

/-- Python `int(s)` on a decimal numeral (only applied to numeric markers). -/
def pyInt (s : PyStr) : Nat := s.foldl (fun n c => n * 10 + (c.toNat - 48)) 0

/-- The streaming token marker `'not_finished'` used by the backend stream. -/
def nfMarker : PyStr := pystr "not_finished"

/-- Fuel-indexed worker for `split_into_chunks`; the fuel (initially the text
length) strictly bounds the number of 4096-character slices. -/
def chunksAux : Nat → PyStr → List PyStr
  | 0, s => [s]
  | fuel + 1, s =>
      if s.length ≤ 4096 then [s]
      else s.take 4096 :: chunksAux fuel (s.drop 4096)

/-- Modelled from the spec: `split_into_chunks` (Utility Library, `utils.py`,
not under `src/`): split arbitrary text into an ordered sequence of chunks
each within the platform 4096-character message limit, whose concatenation
reconstructs the original text; a single chunk is returned unchanged when the
length is at most 4096. -/
def split_into_chunks (s : PyStr) : List PyStr := chunksAux s.length s

/-- Any fuel returns a within-limit text as a single unchanged chunk. -/
theorem chunksAux_short (f : Nat) (t : PyStr) (h : t.length ≤ 4096) : chunksAux f t = [t] := by
  cases f with
  | zero => rfl
  | succ k => simp [chunksAux, h]

/-- A text within the limit is returned as a single unchanged chunk. -/
theorem split_into_chunks_short (s : PyStr) (h : s.length ≤ 4096) :
    split_into_chunks s = [s] :=
  chunksAux_short s.length s h

/-- A text over the limit but within two chunks splits at index 4096. -/
theorem split_into_chunks_two (s : PyStr) (h1 : 4096 < s.length) (h2 : s.length ≤ 8192) :
    split_into_chunks s = [s.take 4096, s.drop 4096] := by
  unfold split_into_chunks
  have hns : ¬ s.length ≤ 4096 := by omega
  rcases hn : s.length with _ | n
  · rw [hn] at h1; exact absurd h1 (by omega)
  · simp only [chunksAux, hns, if_false]
    have hd : (s.drop 4096).length ≤ 4096 := by
      simp only [List.length_drop]
      omega
    rw [chunksAux_short n _ hd]

/-- Localized user-facing notices, identified by their localization key. -/
inductive Notice
  | disallowed
  | budget_limit
  | resend_failed
  | chat_fail
  | media_download_fail
  | media_type_fail
  | transcribe_fail
  | vision_fail
  | function_unavailable
  | error_try_again
  | loading
  deriving DecidableEq, Repr

/-- Observable side effects of a handler execution, in program order. -/
inductive BAction
  | typing
  | sendMessage (text : PyStr) (md : Bool)
  | editMessage (msgId : Nat) (text : PyStr) (md : Bool)
  | inlineEdit (text : PyStr) (md : Bool)
  | deleteMessage (msgId : Nat)
  | sleep (ms : Nat)
  | backendCall (chatId : Nat) (query : PyStr)
  | recordChatUsage (userId : Nat) (tokens : Nat)
  | handleDirect (d : Nat)
  | cleanupDirect (d : Nat)
  | notice (n : Notice)
  deriving DecidableEq, Repr

/-- Outcome of one messaging-platform network operation (send/edit/delete). -/
inductive NetOutcome
  | ok
  | retryAfter (sec : Nat)
  | timedOut
  | err
  deriving DecidableEq, Repr

/-- A streamed or complete backend payload: ordinary text, or the Direct
Result sentinel (modelled from the spec as a tagged payload carrying an
identifier for its temporary files). -/
inductive ContentV
  | txt (s : PyStr)
  | direct (d : Nat)
  deriving DecidableEq, Repr

/-- Modelled from the spec: `is_direct_result` (Utility Library, `utils.py`,
not under `src/`): a predicate recognizing the Direct Result sentinel shape. -/
def is_direct_result : ContentV → Bool
  | .direct _ => true
  | .txt _ => false

/-- The message a group update replies to. -/
structure ReplyMsg where
  rtext : PyStr
  fromBot : Bool
  deriving DecidableEq, Repr

/-- The fields of a Telegram update read by the prompt/resend handlers. -/
structure Upd where
  editedMessage : Bool
  hasMessage : Bool
  viaBot : Bool
  text : PyStr
  chat_id : Nat
  user_id : Nat
  isGroup : Bool
  replyTo : Option ReplyMsg
  deriving DecidableEq, Repr

/-- Modelled from the spec: `message_text` (Utility Library, `utils.py`, not
under `src/`): extract the effective text of a message, trimming a leading
command token when present. -/
def message_text (m : Upd) : PyStr :=
  if m.text.head? = some '/' then pyStrip (m.text.dropWhile (fun c => ¬ c = ' '))
  else m.text

/-- Mutable orchestrator state touched by the prompt/resend handlers:
the chat-id to last-submitted-prompt cache (`bot.last_message`). -/
structure BotState where
  lastMessage : List (Nat × PyStr)
  deriving DecidableEq, Repr

/-- Python `dict.get`-style lookup on the association-list model. -/
def dictGet : List (Nat × PyStr) → Nat → Option PyStr
  | [], _ => none
  | p :: d, k => if p.1 = k then some p.2 else dictGet d k

/-- Python `d[k] = v` on the association-list model: overwrite the slot of an
existing key, else append the new binding. -/
def dictInsert : List (Nat × PyStr) → Nat → PyStr → List (Nat × PyStr)
  | [], k, v => [(k, v)]
  | p :: d, k, v => if p.1 = k then (k, v) :: d else p :: dictInsert d k v

/-- Python `d.pop(k)`'s removal effect on the association-list model. -/
def dictRemove : List (Nat × PyStr) → Nat → List (Nat × PyStr)
  | [], _ => []
  | p :: d, k => if p.1 = k then d else p :: dictRemove d k

/-- Environment of a prompt/resend handler execution: configuration values,
gate predicates, backend responses and platform network outcomes.  The gate
predicates `is_allowed` / `is_within_budget` and the streaming cutoff policy
`get_stream_cutoff_values` live in `utils.py` (not under `src/`) and are
modelled from the spec as opaque boolean/numeric inputs of the execution. -/
structure BotEnv where
  is_allowed : Bool
  is_within_budget : Bool
  stream : Bool
  group_trigger_keyword : PyStr
  get_chat_response : PyStr → Except Unit (ContentV × Nat)
  get_chat_response_stream : PyStr → List (ContentV × PyStr)
  get_stream_cutoff_values : PyStr → Nat
  netOutcomes : List NetOutcome

/-- `check_allowed_and_within_budget` (src/bot/setup_helpers.py, lines 25-46):
returns the pass signal plus the notification actions of the failure paths. -/
def check_allowed_and_within_budget (env : BotEnv) : Bool × List BAction :=
  if ¬ env.is_allowed then (false, [BAction.notice .disallowed])
  else if ¬ env.is_within_budget then (false, [BAction.notice .budget_limit])
  else (true, [])

/-- Loop state of the streaming delivery state machine inside `prompt`
(src/bot/message_handlers.py, lines 397-471).  `msgs` holds the current text
of every message sent so far, indexed by message id (`none` once deleted);
`acts` is the accumulated action trace and `oracle` the remaining platform
network outcomes (exhausted oracle means success). -/
structure StreamState where
  i : Nat
  prev : PyStr
  sentMessage : Option Nat
  backoff : Nat
  streamChunk : Nat
  msgs : List (Option PyStr)
  totalTokens : Nat
  acts : List BAction
  oracle : List NetOutcome
  deriving Repr

/-- Pop the next platform network outcome (success once the oracle runs out). -/
def attemptNet (st : StreamState) : NetOutcome × StreamState :=
  match st.oracle with
  | [] => (.ok, st)
  | o :: rest => (o, { st with oracle := rest })

/-- End of one loop iteration (lines 469-471): `i += 1`, and a marker other
than `'not_finished'` is captured as the turn's total token count. -/
def finishIter (st : StreamState) (tokens : PyStr) : StreamState :=
  let st := { st with i := st.i + 1 }
  if tokens ≠ nfMarker then { st with totalTokens := pyInt tokens } else st

/-- `stream_chunks[-2]`: the penultimate chunk, finalized on overflow. -/
def penultChunk (chunks : List PyStr) : PyStr := chunks.getD (chunks.length - 2) []

/-- Sending a fresh reply message (lines 437-443 body): on success the new
message becomes the displayed one and the iteration finishes; a failure is
swallowed and the iteration is skipped (`except: continue`). -/
def doSend (st : StreamState) (content : PyStr) (tokens : PyStr) : StreamState :=
  let (o, st) := attemptNet st
  let st := { st with acts := st.acts ++ [BAction.sendMessage content false] }
  match o with
  | .ok =>
      finishIter
        { st with sentMessage := some st.msgs.length, msgs := st.msgs ++ [some content] }
        tokens
  | _ => st

/-- The `i == 0` branch (lines 432-443): delete a stale in-flight message if
any, then send the first reply; any failure skips to the next pair. -/
def firstSend (st : StreamState) (content : PyStr) (tokens : PyStr) : StreamState :=
  match st.sentMessage with
  | some id =>
      let (o, st) := attemptNet st
      let st := { st with acts := st.acts ++ [BAction.deleteMessage id] }
      match o with
      | .ok => doSend { st with msgs := st.msgs.set id none } content tokens
      | _ => st
  | none => doSend st content tokens

/-- The overflow-split branch (lines 413-427): finalize the now-complete
penultimate chunk into the displayed message (failure ignored), then start a
new message carrying the tail chunk (failure ignored), then `continue`. -/
def splitPath (st : StreamState) (chunks : List PyStr) : StreamState :=
  let st := { st with streamChunk := st.streamChunk + 1 }
  let st :=
    match st.sentMessage with
    | none => st
    | some id =>
        let (o, st) := attemptNet st
        let st := { st with acts := st.acts ++ [BAction.editMessage id (penultChunk chunks) true] }
        match o with
        | .ok => { st with msgs := st.msgs.set id (some (penultChunk chunks)) }
        | _ => st
  let content := chunks.getLastD []
  let sendText := if content.length > 0 then content else pystr "..."
  let (o, st) := attemptNet st
  let st := { st with acts := st.acts ++ [BAction.sendMessage sendText false] }
  match o with
  | .ok => { st with sentMessage := some st.msgs.length, msgs := st.msgs ++ [some sendText] }
  | _ => st

/-- The `elif` edit branch (lines 445-467): issue an edit when the length
delta beats the cutoff-plus-backoff or the marker signals completion; a
rate-limit failure adds 5 to the backoff and sleeps the platform duration, a
timeout adds 5 and sleeps 0.5 s, any other failure adds 5 without sleeping,
and a successful edit pauses 10 ms. -/
def editPhase (env : BotEnv) (st : StreamState) (content : PyStr) (tokens : PyStr) :
    StreamState :=
  let cutoff := env.get_stream_cutoff_values content + st.backoff
  if intAbs content.length st.prev.length > cutoff ∨ tokens ≠ nfMarker then
    let st := { st with prev := content }
    let use_markdown : Bool := tokens != nfMarker
    match st.sentMessage with
    | none => { st with backoff := st.backoff + 5 }
    | some id =>
        let (o, st) := attemptNet st
        let st := { st with acts := st.acts ++ [BAction.editMessage id content use_markdown] }
        match o with
        | .ok =>
            finishIter
              { st with msgs := st.msgs.set id (some content), acts := st.acts ++ [BAction.sleep 10] }
              tokens
        | .retryAfter n =>
            { st with backoff := st.backoff + 5, acts := st.acts ++ [BAction.sleep (1000 * n)] }
        | .timedOut => { st with backoff := st.backoff + 5, acts := st.acts ++ [BAction.sleep 500] }
        | .err => { st with backoff := st.backoff + 5 }
  else finishIter st tokens

/-- One iteration of the streaming loop on a text payload (lines 407-471):
skip empty content, handle chunk overflow, then first-send or edit. -/
def streamTxtStep (env : BotEnv) (st : StreamState) (content : PyStr) (tokens : PyStr) :
    StreamState :=
  if pyStrip content = [] then st
  else
    let chunks := split_into_chunks content
    let content := if chunks.length > 1 then chunks.getLastD [] else content
    if chunks.length > 1 ∧ st.streamChunk ≠ chunks.length - 1 then splitPath st chunks
    else if st.i = 0 then firstSend st content tokens
    else editPhase env st content tokens

/-- Result of one streaming iteration: continue, or the Direct Result
short-circuit of lines 404-405 terminating the whole handler. -/
inductive StepRes
  | cont (st : StreamState)
  | dir (st : StreamState) (d : Nat)

/-- One full iteration of the streaming loop (lines 403-471). -/
def streamStep (env : BotEnv) (st : StreamState) : ContentV × PyStr → StepRes
  | (.direct d, _) => .dir st d
  | (.txt c, tk) => .cont (streamTxtStep env st c tk)

/-- Run the streaming loop over the realized stream; `some d` reports the
Direct Result short-circuit. -/
def streamLoop (env : BotEnv) (st : StreamState) : List (ContentV × PyStr) →
    StreamState × Option Nat
  | [] => (st, none)
  | item :: rest =>
      match streamStep env st item with
      | .cont st' => streamLoop env st' rest
      | .dir st' d => (st', d)

/-- Initial streaming state (lines 397-401) with the network oracle. -/
def initStream (oracle : List NetOutcome) : StreamState :=
  { i := 0, prev := [], sentMessage := none, backoff := 0, streamChunk := 0,
    msgs := [], totalTokens := 0, acts := [], oracle := oracle }

/-- The non-streaming chunked delivery loop of `prompt` (lines 484-502): each
chunk is sent with Markdown, retried once as plain text, and a second failure
re-raises (aborting the remaining chunks).  Returns the send actions, whether
an exception escaped, and the remaining network oracle. -/
def sendChunksLoop (oracle : List NetOutcome) : List PyStr →
    List BAction × Bool × List NetOutcome
  | [] => ([], false, oracle)
  | c :: rest =>
      let (o1, oracle) :=
        match oracle with
        | [] => (NetOutcome.ok, [])
        | o :: os => (o, os)
      match o1 with
      | .ok =>
          let (acts, raised, oracle) := sendChunksLoop oracle rest
          (BAction.sendMessage c true :: acts, raised, oracle)
      | _ =>
          let (o2, oracle) :=
            match oracle with
            | [] => (NetOutcome.ok, [])
            | o :: os => (o, os)
          match o2 with
          | .ok =>
              let (acts, raised, oracle) := sendChunksLoop oracle rest
              (BAction.sendMessage c true :: BAction.sendMessage c false :: acts, raised, oracle)
          | _ => ([BAction.sendMessage c true, BAction.sendMessage c false], true, oracle)

/-- Group-chat trigger gating of `prompt` (lines 369-385): returns `none` when
the message is silently ignored, otherwise the (possibly keyword-stripped and
reply-quoted) prompt text forwarded to the backend. -/
def groupGate (env : BotEnv) (upd : Upd) (prompt0 : PyStr) : Option PyStr :=
  if upd.isGroup then
    let kw := env.group_trigger_keyword
    if pyStartsWith (pyLower prompt0) (pyLower kw) ∨
        pyStartsWith (pyLower upd.text) (pystr "/chat") then
      let p := if pyStartsWith (pyLower prompt0) (pyLower kw) then
          pyStrip (prompt0.drop kw.length)
        else prompt0
      let p :=
        match upd.replyTo with
        | some r => if r.rtext ≠ [] ∧ ¬ r.fromBot then
            pystr "\"" ++ r.rtext ++ pystr "\" " ++ p
          else p
        | none => p
      some p
    else
      match upd.replyTo with
      | some r => if r.fromBot then some prompt0 else none
      | none => none
  else some prompt0

/-- The delivery part of `prompt` (lines 387-515): the `try` block choosing
between the streaming state machine and the blocking chunked reply, the
Direct Result short-circuits, the shared usage-recording call of line 506,
and the outer exception handler replying with the localized chat failure. -/
def promptDeliver (env : BotEnv) (upd : Upd) (p : PyStr) : List BAction :=
  let pre := [BAction.typing, BAction.backendCall upd.chat_id p]
  if env.stream then
    let (st, dres) := streamLoop env (initStream env.netOutcomes)
      (env.get_chat_response_stream p)
    match dres with
    | some d => pre ++ st.acts ++ [BAction.handleDirect d]
    | none => pre ++ st.acts ++ [BAction.recordChatUsage upd.user_id st.totalTokens]
  else
    match env.get_chat_response p with
    | .error _ => pre ++ [BAction.notice .chat_fail]
    | .ok (.direct d, tt) =>
        pre ++ [BAction.handleDirect d, BAction.recordChatUsage upd.user_id tt]
    | .ok (.txt response, tt) =>
        let chunks := split_into_chunks response
        let (acts, raised, _) := sendChunksLoop env.netOutcomes chunks
        if raised then pre ++ acts ++ [BAction.notice .chat_fail]
        else pre ++ acts ++ [BAction.recordChatUsage upd.user_id tt]

/-- The `prompt` handler (src/bot/message_handlers.py, lines 352-515): update
filtering, the access/budget gate, caching the raw text in the last-message
map (line 367), group trigger gating, then delivery. -/
def promptHandler (env : BotEnv) (bot : BotState) (upd : Upd) : BotState × List BAction :=
  if upd.editedMessage ∨ ¬ upd.hasMessage ∨ upd.viaBot then (bot, [])
  else
    let gate := check_allowed_and_within_budget env
    if ¬ gate.1 then (bot, gate.2)
    else
      let prompt0 := message_text upd
      let bot := { bot with lastMessage := dictInsert bot.lastMessage upd.chat_id prompt0 }
      match groupGate env upd prompt0 with
      | none => (bot, [])
      | some p => (bot, promptDeliver env upd p)

/-- The `resend` command handler (src/bot/command_handlers.py, lines 161-187):
allow-list gate, the localized nothing-to-resend notice when no prompt is
cached for the chat, otherwise pop the cached prompt, overwrite the message
text with it and re-invoke the prompt handler. -/
def resendHandler (env : BotEnv) (bot : BotState) (upd : Upd) : BotState × List BAction :=
  if ¬ env.is_allowed then (bot, [BAction.notice .disallowed])
  else
    match dictGet bot.lastMessage upd.chat_id with
    | none => (bot, [BAction.notice .resend_failed])
    | some t =>
        let bot := { bot with lastMessage := dictRemove bot.lastMessage upd.chat_id }
        promptHandler env bot { upd with text := t }

/-- Inserting a binding makes it visible to lookup at the same key. -/
theorem dictGet_dictInsert (d : List (Nat × PyStr)) (k : Nat) (v : PyStr) :
    dictGet (dictInsert d k v) k = some v := by
  induction d with
  | nil => simp [dictGet, dictInsert]
  | cons p d ih =>
      by_cases hp : p.1 = k
      · simp [dictGet, dictInsert, hp]
      · simp [dictGet, dictInsert, hp, ih]

/-- Every delivery path of `prompt` begins by calling the backend with the
processed prompt text. -/
theorem backendCall_mem_promptDeliver (env : BotEnv) (upd : Upd) (p : PyStr) :
    BAction.backendCall upd.chat_id p ∈ promptDeliver env upd p := by
  unfold promptDeliver
  split
  · rcases streamLoop env (initStream env.netOutcomes) (env.get_chat_response_stream p) with ⟨st, dres⟩
    cases dres <;> simp
  · rcases hc : env.get_chat_response p with e | v
    · simp
    · rcases v with ⟨c, tt⟩
      cases c with
      | txt response =>
          by_cases hr : (sendChunksLoop env.netOutcomes (split_into_chunks response)).2.1 = true
          · simp [hr]
          · simp [hr]
      | direct d => simp

/-- A realized stream containing no Direct Result payload never triggers the
streaming short-circuit: the loop runs to completion. -/
theorem streamLoop_no_direct (env : BotEnv) (items : List (ContentV × PyStr))
    (h : ∀ x ∈ items, is_direct_result x.1 = false) (st : StreamState) :
    (streamLoop env st items).2 = none := by
  induction items generalizing st with
  | nil => rfl
  | cons it rest ih =>
      match it with
      | (.txt c, tk) =>
          simp only [streamLoop, streamStep]
          exact ih (fun x hx => h x (by simp [hx])) _
      | (.direct d, tk) =>
          have hd := h (.direct d, tk) (by simp)
          simp [is_direct_result] at hd

/-- Bool predicate recognizing the shared usage-recording action. -/
def isRecordChatUsage : BAction → Bool
  | .recordChatUsage _ _ => true
  | _ => false

/-- Bool predicate for the platform-delivery actions the streaming loop may
emit (sends, edits, deletions, sleeps). -/
@[simp] def isStreamAct : BAction → Bool
  | .sendMessage _ _ => true
  | .editMessage _ _ _ => true
  | .deleteMessage _ => true
  | .sleep _ => true
  | _ => false

/-- Finishing an iteration leaves the action trace unchanged. -/
@[simp] theorem finishIter_acts (st : StreamState) (tk : PyStr) : (finishIter st tk).acts = st.acts := by
  unfold finishIter
  split <;> rfl

/-- `doSend` appends exactly one delivery action. -/
theorem doSend_delta (st : StreamState) (c tk : PyStr) :
    ∃ L, (doSend st c tk).acts = st.acts ++ L ∧ ∀ a ∈ L, isStreamAct a = true := by
  refine ⟨[BAction.sendMessage c false], ?_, by simp⟩
  rcases ho : st.oracle with _ | ⟨o, rest⟩
  · simp [doSend, attemptNet, ho, finishIter_acts]
  · cases o <;> simp [doSend, attemptNet, ho, finishIter_acts]

/-- `firstSend` appends only delivery actions. -/
theorem firstSend_delta (st : StreamState) (c tk : PyStr) :
    ∃ L, (firstSend st c tk).acts = st.acts ++ L ∧ ∀ a ∈ L, isStreamAct a = true := by
  rcases hm : st.sentMessage with _ | id
  · obtain ⟨L, hL, hLa⟩ := doSend_delta st c tk
    exact ⟨L, by simpa [firstSend, hm] using hL, hLa⟩
  · rcases ho : st.oracle with _ | ⟨o, rest⟩
    · obtain ⟨L, hL, hLa⟩ := doSend_delta { st with msgs := st.msgs.set id none, acts := st.acts ++ [BAction.deleteMessage id] } c tk
      refine ⟨BAction.deleteMessage id :: L, ?_, ?_⟩
      · rw [hm, ho] at hL
        simp only [firstSend, hm, attemptNet, ho]
        simpa using hL
      · intro a ha
        rcases List.mem_cons.mp ha with rfl | ha
        · simp
        · exact hLa a ha
    · cases o
      case ok =>
          obtain ⟨L, hL, hLa⟩ := doSend_delta { st with oracle := rest, msgs := st.msgs.set id none, acts := st.acts ++ [BAction.deleteMessage id] } c tk
          refine ⟨BAction.deleteMessage id :: L, ?_, ?_⟩
          · rw [hm] at hL
            simp only [firstSend, hm, attemptNet, ho]
            simpa using hL
          · intro a ha
            rcases List.mem_cons.mp ha with rfl | ha
            · simp
            · exact hLa a ha
      case retryAfter n =>
          exact ⟨[BAction.deleteMessage id], by simp [firstSend, hm, attemptNet, ho], by simp⟩
      case timedOut =>
          exact ⟨[BAction.deleteMessage id], by simp [firstSend, hm, attemptNet, ho], by simp⟩
      case err =>
          exact ⟨[BAction.deleteMessage id], by simp [firstSend, hm, attemptNet, ho], by simp⟩

/-- The overflow-split path appends only delivery actions. -/
theorem splitPath_delta (st : StreamState) (chunks : List PyStr) :
    ∃ L, (splitPath st chunks).acts = st.acts ++ L ∧ ∀ a ∈ L, isStreamAct a = true := by
  rcases hm : st.sentMessage with _ | id
  · refine ⟨[BAction.sendMessage
      (if (chunks.getLastD []).length > 0 then chunks.getLastD [] else pystr "...") false],
      ?_, by simp⟩
    rcases ho : st.oracle with _ | ⟨o, rest⟩
    · simp [splitPath, hm, attemptNet, ho]
    · cases o <;> simp [splitPath, hm, attemptNet, ho]
  · refine ⟨[BAction.editMessage id (penultChunk chunks) true,
      BAction.sendMessage
        (if (chunks.getLastD []).length > 0 then chunks.getLastD [] else pystr "...") false],
      ?_, by simp⟩
    rcases ho : st.oracle with _ | ⟨o1, rest⟩
    · simp [splitPath, hm, attemptNet, ho]
    · rcases hr : rest with _ | ⟨o2, rest2⟩
      · cases o1 <;> simp [splitPath, hm, attemptNet, ho, hr]
      · cases o1 <;> cases o2 <;> simp [splitPath, hm, attemptNet, ho, hr]

/-- The edit branch appends only delivery actions. -/
theorem editPhase_delta (env : BotEnv) (st : StreamState) (content tokens : PyStr) :
    ∃ L, (editPhase env st content tokens).acts = st.acts ++ L ∧
      ∀ a ∈ L, isStreamAct a = true := by
  by_cases hc : intAbs content.length st.prev.length >
      env.get_stream_cutoff_values content + st.backoff ∨ tokens ≠ nfMarker
  · rcases hm : st.sentMessage with _ | id
    · exact ⟨[], by simp [editPhase, hc, hm], by simp⟩
    · rcases ho : st.oracle with _ | ⟨o, rest⟩
      · exact ⟨[BAction.editMessage id content (tokens != nfMarker), BAction.sleep 10],
          by simp [editPhase, hc, hm, attemptNet, ho, finishIter_acts], by simp⟩
      · cases o with
        | ok =>
            exact ⟨[BAction.editMessage id content (tokens != nfMarker), BAction.sleep 10],
              by simp [editPhase, hc, hm, attemptNet, ho, finishIter_acts], by simp⟩
        | retryAfter n =>
            exact ⟨[BAction.editMessage id content (tokens != nfMarker),
              BAction.sleep (1000 * n)], by simp [editPhase, hc, hm, attemptNet, ho], by simp⟩
        | timedOut =>
            exact ⟨[BAction.editMessage id content (tokens != nfMarker), BAction.sleep 500],
              by simp [editPhase, hc, hm, attemptNet, ho], by simp⟩
        | err =>
            exact ⟨[BAction.editMessage id content (tokens != nfMarker)],
              by simp [editPhase, hc, hm, attemptNet, ho], by simp⟩
  · exact ⟨[], by simp [editPhase, hc, finishIter_acts], by simp⟩

/-- One streaming iteration appends only delivery actions. -/
theorem streamTxtStep_delta (env : BotEnv) (st : StreamState) (c tk : PyStr) :
    ∃ L, (streamTxtStep env st c tk).acts = st.acts ++ L ∧ ∀ a ∈ L, isStreamAct a = true := by
  by_cases h1 : pyStrip c = []
  · exact ⟨[], by simp [streamTxtStep, h1], by simp⟩
  · by_cases h2 : (split_into_chunks c).length > 1 ∧
        st.streamChunk ≠ (split_into_chunks c).length - 1
    · obtain ⟨L, hL, hLa⟩ := splitPath_delta st (split_into_chunks c)
      exact ⟨L, by simp [streamTxtStep, h1, h2, hL], hLa⟩
    · by_cases h3 : st.i = 0
      · obtain ⟨L, hL, hLa⟩ := firstSend_delta st
          (if (split_into_chunks c).length > 1 then (split_into_chunks c).getLastD [] else c) tk
        exact ⟨L, by simpa [streamTxtStep, h1, h2, h3] using hL, hLa⟩
      · obtain ⟨L, hL, hLa⟩ := editPhase_delta env st
          (if (split_into_chunks c).length > 1 then (split_into_chunks c).getLastD [] else c) tk
        exact ⟨L, by simpa [streamTxtStep, h1, h2, h3] using hL, hLa⟩

/-- Every action accumulated by the streaming loop is a delivery action. -/
theorem streamLoop_acts (env : BotEnv) (items : List (ContentV × PyStr)) (st : StreamState) :
    ∀ a ∈ (streamLoop env st items).1.acts, a ∈ st.acts ∨ isStreamAct a = true := by
  induction items generalizing st with
  | nil => exact fun a ha => Or.inl ha
  | cons it rest ih =>
      intro a ha
      match it with
      | (.direct d, tk) => exact Or.inl (by simpa [streamLoop, streamStep] using ha)
      | (.txt c, tk) =>
          simp only [streamLoop, streamStep] at ha
          rcases ih (streamTxtStep env st c tk) a ha with h | h
          · obtain ⟨L, hL, hLa⟩ := streamTxtStep_delta env st c tk
            rw [hL] at h
            rcases List.mem_append.mp h with h | h
            · exact Or.inl h
            · exact Or.inr (hLa a h)
          · exact Or.inr h

/-- Every action emitted by the non-streaming chunked delivery loop is a
message send. -/
theorem sendChunksLoop_acts (chunks : List PyStr) :
    ∀ oracle, ∀ a ∈ (sendChunksLoop oracle chunks).1, isStreamAct a = true := by
  induction chunks with
  | nil => intro oracle a ha; simp [sendChunksLoop] at ha
  | cons c rest ih =>
      intro oracle a ha
      rcases ho : oracle with _ | ⟨o, os⟩
      · rw [ho] at ha
        simp only [sendChunksLoop] at ha
        rcases List.mem_cons.mp ha with rfl | ha
        · simp
        · exact ih [] a ha
      · rw [ho] at ha
        cases o
        case ok =>
            simp only [sendChunksLoop] at ha
            rcases List.mem_cons.mp ha with rfl | ha
            · simp
            · exact ih os a ha
        case retryAfter n =>
            rcases hs : os with _ | ⟨o2, os2⟩
            · simp only [sendChunksLoop, hs] at ha
              rcases List.mem_cons.mp ha with rfl | ha
              · simp
              · rcases List.mem_cons.mp ha with rfl | ha
                · simp
                · exact ih [] a ha
            · simp only [sendChunksLoop, hs] at ha
              cases o2
              case ok =>
                  rcases List.mem_cons.mp ha with rfl | ha
                  · simp
                  · rcases List.mem_cons.mp ha with rfl | ha
                    · simp
                    · exact ih os2 a ha
              all_goals (simp at ha; rcases ha with rfl | rfl <;> simp)
        case timedOut =>
            rcases hs : os with _ | ⟨o2, os2⟩
            · simp only [sendChunksLoop, hs] at ha
              rcases List.mem_cons.mp ha with rfl | ha
              · simp
              · rcases List.mem_cons.mp ha with rfl | ha
                · simp
                · exact ih [] a ha
            · simp only [sendChunksLoop, hs] at ha
              cases o2
              case ok =>
                  rcases List.mem_cons.mp ha with rfl | ha
                  · simp
                  · rcases List.mem_cons.mp ha with rfl | ha
                    · simp
                    · exact ih os2 a ha
              all_goals (simp at ha; rcases ha with rfl | rfl <;> simp)
        case err =>
            rcases hs : os with _ | ⟨o2, os2⟩
            · simp only [sendChunksLoop, hs] at ha
              rcases List.mem_cons.mp ha with rfl | ha
              · simp
              · rcases List.mem_cons.mp ha with rfl | ha
                · simp
                · exact ih [] a ha
            · simp only [sendChunksLoop, hs] at ha
              cases o2
              case ok =>
                  rcases List.mem_cons.mp ha with rfl | ha
                  · simp
                  · rcases List.mem_cons.mp ha with rfl | ha
                    · simp
                    · exact ih os2 a ha
              all_goals (simp at ha; rcases ha with rfl | rfl <;> simp)

/-- The prompt delivery path never emits the nothing-to-resend notice. -/
theorem resend_notice_not_in_promptDeliver (env : BotEnv) (upd : Upd) (p : PyStr) :
    BAction.notice Notice.resend_failed ∉ promptDeliver env upd p := by
  intro hmem
  unfold promptDeliver at hmem
  by_cases hs : env.stream = true
  · rw [if_pos hs] at hmem
    rcases hl : streamLoop env (initStream env.netOutcomes) (env.get_chat_response_stream p)
      with ⟨st, dres⟩
    rw [hl] at hmem
    have hacts := streamLoop_acts env (env.get_chat_response_stream p) (initStream env.netOutcomes)
    rw [hl] at hacts
    cases dres with
    | some d =>
        simp at hmem
        have := hacts _ hmem
        simp [initStream] at this
    | none =>
        simp at hmem
        have := hacts _ hmem
        simp [initStream] at this
  · rw [if_neg hs] at hmem
    rcases hc : env.get_chat_response p with e | v
    · rw [hc] at hmem
      simp at hmem
    · rcases v with ⟨c, tt⟩
      cases c with
      | direct d =>
          rw [hc] at hmem
          simp at hmem
      | txt response =>
          rw [hc] at hmem
          by_cases hr : (sendChunksLoop env.netOutcomes (split_into_chunks response)).2.1 = true
          · simp [hr] at hmem
            have := sendChunksLoop_acts (split_into_chunks response) env.netOutcomes _ hmem
            simp at this
          · simp [hr] at hmem
            have := sendChunksLoop_acts (split_into_chunks response) env.netOutcomes _ hmem
            simp at this

/-- When the update passes the filters and the gate in a private chat, the
prompt handler caches the message text and runs the delivery path on it. -/
theorem promptHandler_run (env : BotEnv) (bot : BotState) (upd : Upd)
    (hga : env.is_allowed = true) (hgb : env.is_within_budget = true)
    (h1 : upd.editedMessage = false) (h2 : upd.hasMessage = true) (h3 : upd.viaBot = false)
    (h4 : upd.isGroup = false) :
    promptHandler env bot upd =
      ({ lastMessage := dictInsert bot.lastMessage upd.chat_id (message_text upd) },
        promptDeliver env upd (message_text upd)) := by
  simp [promptHandler, check_allowed_and_within_budget, groupGate, h1, h2, h3, h4, hga, hgb]

/-- When a prompt is cached for the chat, resend pops it, overwrites the
message text and re-runs the prompt handler (which re-caches the text). -/
theorem resendHandler_run_some (env : BotEnv) (bot : BotState) (upd : Upd) (t : PyStr)
    (hga : env.is_allowed = true) (hgb : env.is_within_budget = true)
    (h1 : upd.editedMessage = false) (h2 : upd.hasMessage = true) (h3 : upd.viaBot = false)
    (h4 : upd.isGroup = false)
    (hcache : dictGet bot.lastMessage upd.chat_id = some t)
    (hmt : message_text { upd with text := t } = t) :
    resendHandler env bot upd =
      ({ lastMessage := dictInsert (dictRemove bot.lastMessage upd.chat_id) upd.chat_id t },
        promptDeliver env { upd with text := t } t) := by
  have hrun := promptHandler_run env
    { bot with lastMessage := dictRemove bot.lastMessage upd.chat_id }
    { upd with text := t } hga hgb h1 h2 h3 h4
  rw [hmt] at hrun
  simp only [resendHandler, hga, Bool.true_eq_false, not_true_eq_false, if_false, hcache]
  simpa using hrun

/-- A concrete private-chat environment: gate passes, streaming disabled, the
backend answers "resp" worth 42 tokens, every network operation succeeds. -/
def envPlain : BotEnv :=
  { is_allowed := true, is_within_budget := true, stream := false,
    group_trigger_keyword := pystr "@ai",
    get_chat_response := fun _ => .ok (.txt (pystr "resp"), 42),
    get_chat_response_stream := fun _ => [],
    get_stream_cutoff_values := fun _ => 0,
    netOutcomes := [] }

/-- A plain "hello" text message in private chat 7 from user 3. -/
def updHello : Upd :=
  { editedMessage := false, hasMessage := true, viaBot := false,
    text := pystr "hello", chat_id := 7, user_id := 3, isGroup := false,
    replyTo := none }

/-- The `/resend` command message in the same chat. -/
def updResendCmd : Upd := { updHello with text := pystr "/resend" }

/-- C1 counterexample: in the concrete trace prompt("hello") for chat 7
followed by two consecutive `/resend` commands, the replayed prompt path
re-caches "hello" (line 367 of src/bot/message_handlers.py runs on the
replay), so after the first resend the cache again holds "hello" and the
second resend replays the prompt to the backend instead of replying with the
localized nothing-to-resend notice — refuting the claim's third part. -/
theorem c1_counterexample_second_resend_replays :
    dictGet (resendHandler envPlain
        (promptHandler envPlain { lastMessage := [] } updHello).1
        updResendCmd).1.lastMessage 7 = some (pystr "hello") ∧
    BAction.notice Notice.resend_failed ∉
      (resendHandler envPlain
        (resendHandler envPlain
          (promptHandler envPlain { lastMessage := [] } updHello).1 updResendCmd).1
        updResendCmd).2 ∧
    BAction.backendCall 7 (pystr "hello") ∈
      (resendHandler envPlain
        (resendHandler envPlain
          (promptHandler envPlain { lastMessage := [] } updHello).1 updResendCmd).1
        updResendCmd).2 := by
  decide

/-- C1 (amended): after the prompt handler processes a message for chat C the
last-message cache holds its text; a resend pops that entry and replays the
full prompt-handling path with the cached text, but the replayed path
re-caches the text, so with no intervening message the cache again holds the
text and a second resend replays the prompt once more — the localized
nothing-to-resend notice is not sent on that second resend (it is sent only
for a chat with no cached entry). -/
theorem c1_resend_pops_replays_and_recaches
    (env : BotEnv) (bot : BotState) (updH updR : Upd)
    (hga : env.is_allowed = true) (hgb : env.is_within_budget = true)
    (hH1 : updH.editedMessage = false) (hH2 : updH.hasMessage = true)
    (hH3 : updH.viaBot = false) (hH4 : updH.isGroup = false)
    (hR1 : updR.editedMessage = false) (hR2 : updR.hasMessage = true)
    (hR3 : updR.viaBot = false) (hR4 : updR.isGroup = false)
    (hRC : updR.chat_id = updH.chat_id)
    (hmtH : message_text updH = updH.text)
    (hmtR : message_text { updR with text := updH.text } = updH.text) :
    dictGet (promptHandler env bot updH).1.lastMessage updH.chat_id = some updH.text ∧
    BAction.backendCall updH.chat_id updH.text ∈
      (resendHandler env (promptHandler env bot updH).1 updR).2 ∧
    dictGet (resendHandler env (promptHandler env bot updH).1 updR).1.lastMessage
      updH.chat_id = some updH.text ∧
    BAction.backendCall updH.chat_id updH.text ∈
      (resendHandler env (resendHandler env (promptHandler env bot updH).1 updR).1 updR).2 ∧
    BAction.notice Notice.resend_failed ∉
      (resendHandler env (resendHandler env (promptHandler env bot updH).1 updR).1 updR).2 := by
  have hp := promptHandler_run env bot updH hga hgb hH1 hH2 hH3 hH4
  rw [hmtH] at hp
  have hc1 : dictGet (promptHandler env bot updH).1.lastMessage updH.chat_id =
      some updH.text := by
    rw [hp]
    exact dictGet_dictInsert _ _ _
  have hcache1 : dictGet (promptHandler env bot updH).1.lastMessage updR.chat_id =
      some updH.text := by rw [hRC]; exact hc1
  have hr1 := resendHandler_run_some env (promptHandler env bot updH).1 updR updH.text
    hga hgb hR1 hR2 hR3 hR4 hcache1 hmtR
  have hc2 : dictGet (resendHandler env (promptHandler env bot updH).1 updR).1.lastMessage
      updH.chat_id = some updH.text := by
    rw [hr1, ← hRC]
    exact dictGet_dictInsert _ _ _
  have hcache2 : dictGet (resendHandler env (promptHandler env bot updH).1 updR).1.lastMessage
      updR.chat_id = some updH.text := by rw [hRC]; exact hc2
  have hr2 := resendHandler_run_some env
    (resendHandler env (promptHandler env bot updH).1 updR).1 updR updH.text
    hga hgb hR1 hR2 hR3 hR4 hcache2 hmtR
  refine ⟨hc1, ?_, hc2, ?_, ?_⟩
  · rw [hr1]
    have := backendCall_mem_promptDeliver env { updR with text := updH.text } updH.text
    simpa [hRC] using this
  · rw [hr2]
    have := backendCall_mem_promptDeliver env { updR with text := updH.text } updH.text
    simpa [hRC] using this
  · rw [hr2]
    exact resend_notice_not_in_promptDeliver env _ _

/-- C1 amended-claim witness at the concrete prompt "hello" / resend trace. -/
theorem c1_resend_pops_replays_and_recaches_witness :
    (message_text updHello = updHello.text ∧
      message_text { updResendCmd with text := updHello.text } = updHello.text) ∧
    (dictGet (promptHandler envPlain { lastMessage := [] } updHello).1.lastMessage
        updHello.chat_id = some updHello.text ∧
      BAction.backendCall updHello.chat_id updHello.text ∈
        (resendHandler envPlain (promptHandler envPlain { lastMessage := [] } updHello).1
          updResendCmd).2 ∧
      dictGet (resendHandler envPlain (promptHandler envPlain { lastMessage := [] } updHello).1
          updResendCmd).1.lastMessage updHello.chat_id = some updHello.text ∧
      BAction.backendCall updHello.chat_id updHello.text ∈
        (resendHandler envPlain (resendHandler envPlain
          (promptHandler envPlain { lastMessage := [] } updHello).1 updResendCmd).1
          updResendCmd).2 ∧
      BAction.notice Notice.resend_failed ∉
        (resendHandler envPlain (resendHandler envPlain
          (promptHandler envPlain { lastMessage := [] } updHello).1 updResendCmd).1
          updResendCmd).2) :=
  ⟨⟨by decide, by decide⟩,
    c1_resend_pops_replays_and_recaches envPlain { lastMessage := [] } updHello updResendCmd
      rfl rfl rfl rfl rfl rfl rfl rfl rfl rfl rfl (by decide) (by decide)⟩

/-- A streaming environment whose realized stream is a single Direct Result. -/
def envStreamDirect : BotEnv := { envPlain with
  stream := true
  get_chat_response_stream := fun _ => [(.direct 0, nfMarker)] }

/-- A streaming environment with an ordinary two-step text stream. -/
def envStreamTxt : BotEnv := { envPlain with
  stream := true
  get_chat_response_stream := fun _ =>
    [(.txt (pystr "hi"), nfMarker), (.txt (pystr "hi there"), pystr "5")] }

/-- C2 counterexample: a streaming turn whose response is a Direct Result
returns from the whole prompt handler at line 405 of
src/bot/message_handlers.py, before the shared usage-recording helper call of
line 506 — so this completed, exception-free execution records no chat
tokens, refuting the claim for the streaming Direct Result case. -/
theorem c2_counterexample_streaming_direct_records_nothing :
    (promptHandler envStreamDirect { lastMessage := [] } updHello).2 =
      [BAction.typing, BAction.backendCall 7 (pystr "hello"), BAction.handleDirect 0] ∧
    (promptHandler envStreamDirect { lastMessage := [] } updHello).2.all
      (fun a => !(isRecordChatUsage a)) = true := by
  decide

/-- C2 (amended): the turn's total consumed chat tokens are recorded via the
shared usage-recording helper in both modes for turns that finish normal
delivery — in the non-streaming mode this includes Direct Result turns — but
a streaming-mode Direct Result returns from the handler before the recording
step, so such a turn records nothing. -/
theorem c2_chat_usage_recording (env : BotEnv) (bot : BotState) (upd : Upd)
    (hga : env.is_allowed = true) (hgb : env.is_within_budget = true)
    (h1 : upd.editedMessage = false) (h2 : upd.hasMessage = true) (h3 : upd.viaBot = false)
    (h4 : upd.isGroup = false) :
    (env.stream = true →
      (∀ x ∈ env.get_chat_response_stream (message_text upd), is_direct_result x.1 = false) →
      ∃ n, BAction.recordChatUsage upd.user_id n ∈ (promptHandler env bot upd).2) ∧
    (∀ d tt, env.stream = false →
      env.get_chat_response (message_text upd) = .ok (.direct d, tt) →
      BAction.recordChatUsage upd.user_id tt ∈ (promptHandler env bot upd).2 ∧
      BAction.handleDirect d ∈ (promptHandler env bot upd).2) ∧
    (∀ r tt, env.stream = false →
      env.get_chat_response (message_text upd) = .ok (.txt r, tt) →
      (sendChunksLoop env.netOutcomes (split_into_chunks r)).2.1 = false →
      BAction.recordChatUsage upd.user_id tt ∈ (promptHandler env bot upd).2) ∧
    (∀ d m rest, env.stream = true →
      env.get_chat_response_stream (message_text upd) = (.direct d, m) :: rest →
      (promptHandler env bot upd).2 =
        [BAction.typing, BAction.backendCall upd.chat_id (message_text upd),
          BAction.handleDirect d]) := by
  have hrun := promptHandler_run env bot upd hga hgb h1 h2 h3 h4
  refine ⟨?_, ?_, ?_, ?_⟩
  · intro hs hnd
    rw [hrun]
    simp only [promptDeliver, hs, if_true]
    rcases hl : streamLoop env (initStream env.netOutcomes)
        (env.get_chat_response_stream (message_text upd)) with ⟨st, dres⟩
    have hnone := streamLoop_no_direct env _ hnd (initStream env.netOutcomes)
    rw [hl] at hnone
    simp only at hnone
    subst hnone
    exact ⟨st.totalTokens, by simp⟩
  · intro d tt hs hresp
    rw [hrun]
    simp [promptDeliver, hs, hresp]
  · intro r tt hs hresp hraise
    rw [hrun]
    simp [promptDeliver, hs, hresp, hraise]
  · intro d m rest hs hstream
    rw [hrun]
    simp [promptDeliver, hs, hstream, streamLoop, streamStep, initStream]

/-- C2 amended-claim witness: a streaming text turn records its total, a
non-streaming turn records, and the concrete streaming Direct Result turn
produces exactly the non-recording trace. -/
theorem c2_chat_usage_recording_witness :
    (∃ n, BAction.recordChatUsage 3 n ∈
      (promptHandler envStreamTxt { lastMessage := [] } updHello).2) ∧
    BAction.recordChatUsage 3 42 ∈ (promptHandler envPlain { lastMessage := [] } updHello).2 ∧
    (promptHandler envStreamDirect { lastMessage := [] } updHello).2 =
      [BAction.typing, BAction.backendCall 7 (pystr "hello"), BAction.handleDirect 0] :=
  ⟨(c2_chat_usage_recording envStreamTxt { lastMessage := [] } updHello
      rfl rfl rfl rfl rfl rfl).1 rfl (by decide),
    (c2_chat_usage_recording envPlain { lastMessage := [] } updHello
      rfl rfl rfl rfl rfl rfl).2.2.1 (pystr "resp") 42 rfl rfl (by decide),
    (c2_chat_usage_recording envStreamDirect { lastMessage := [] } updHello
      rfl rfl rfl rfl rfl rfl).2.2.2 0 nfMarker [] rfl rfl⟩

/-- C7: in a group chat with a non-empty trigger keyword, a message that does
not start with the keyword (case-insensitively), is not a `/chat` command and
is not a reply to the bot is silently ignored with no actions at all (hence
zero backend calls); a message starting with the keyword is forwarded to the
backend with the keyword prefix stripped and surrounding whitespace trimmed. -/
theorem c7_group_trigger_gating (env : BotEnv) (bot : BotState) (upd : Upd)
    (hga : env.is_allowed = true) (hgb : env.is_within_budget = true)
    (h1 : upd.editedMessage = false) (h2 : upd.hasMessage = true) (h3 : upd.viaBot = false)
    (hg : upd.isGroup = true) (_hkw : env.group_trigger_keyword ≠ []) :
    (pyStartsWith (pyLower (message_text upd)) (pyLower env.group_trigger_keyword) = false →
      pyStartsWith (pyLower upd.text) (pystr "/chat") = false →
      (upd.replyTo = none ∨ ∀ r, upd.replyTo = some r → r.fromBot = false) →
      (promptHandler env bot upd).2 = []) ∧
    (pyStartsWith (pyLower (message_text upd)) (pyLower env.group_trigger_keyword) = true →
      upd.replyTo = none →
      BAction.backendCall upd.chat_id
        (pyStrip ((message_text upd).drop env.group_trigger_keyword.length)) ∈
        (promptHandler env bot upd).2) := by
  constructor
  · intro hnp hnc hrep
    have hgg : groupGate env upd (message_text upd) = none := by
      rcases hrep with hr | hr
      · simp [groupGate, hg, hnp, hnc, hr]
      · rcases hro : upd.replyTo with _ | r
        · simp [groupGate, hg, hnp, hnc, hro]
        · simp [groupGate, hg, hnp, hnc, hro, hr r hro]
    simp [promptHandler, check_allowed_and_within_budget, h1, h2, h3, hga, hgb, hgg]
  · intro hp hro
    have hgg : groupGate env upd (message_text upd) =
        some (pyStrip ((message_text upd).drop env.group_trigger_keyword.length)) := by
      simp [groupGate, hg, hp, hro]
    simp only [promptHandler, check_allowed_and_within_budget, h1, h2, h3, hga, hgb,
      Bool.true_eq_false, not_true_eq_false, Bool.false_eq_true, false_or, or_self,
      if_false, Bool.not_eq_true, hgg]
    exact backendCall_mem_promptDeliver env upd _

/-- A group-chat message "hello" without the trigger keyword. -/
def updGroupPlain : Upd := { updHello with isGroup := true }

/-- A group-chat message "@ai hello" carrying the trigger keyword. -/
def updGroupKw : Upd := { updHello with isGroup := true, text := pystr "@ai hello" }

/-- C7 witness at the concrete keyword "@ai": the group message "hello" is
ignored with zero actions, and "@ai hello" reaches the backend as "hello". -/
theorem c7_group_trigger_gating_witness :
    (promptHandler envPlain { lastMessage := [] } updGroupPlain).2 = [] ∧
    BAction.backendCall 7 (pystr "hello") ∈
      (promptHandler envPlain { lastMessage := [] } updGroupKw).2 :=
  ⟨(c7_group_trigger_gating envPlain { lastMessage := [] } updGroupPlain
      rfl rfl rfl rfl rfl rfl (by decide)).1 (by decide) (by decide) (Or.inl rfl),
    by
      have := (c7_group_trigger_gating envPlain { lastMessage := [] } updGroupKw
        rfl rfl rfl rfl rfl rfl (by decide)).2 (by decide) rfl
      simpa using this⟩

/-- A streaming environment (zero cutoff) whose second network operation
fails with a rate-limit of 3 seconds; the realized stream grows "aa" →
"aaaa" → "aaaaaa" with the final marker "7". -/
def envC3 : BotEnv := { envPlain with
  stream := true
  netOutcomes := [.ok, .retryAfter 3]
  get_chat_response_stream := fun _ =>
    [(.txt (pystr "aa"), nfMarker), (.txt (pystr "aaaa"), nfMarker),
      (.txt (pystr "aaaaaa"), pystr "7")] }

/-- C3 counterexample: when the edit of the pair ("aaaa", not_finished) fails
with a rate-limit of 3 seconds, the loop adds 5 to the backoff and sleeps
3000 ms, but then continues with the next yielded pair ("aaaaaa", "7") — the
failed pair is attempted exactly once and never retried, refuting the
claim's "retries the same (partial_text, token_marker) pair". -/
theorem c3_counterexample_rate_limited_pair_not_retried :
    (promptHandler envC3 { lastMessage := [] } updHello).2 =
      [BAction.typing, BAction.backendCall 7 (pystr "hello"),
        BAction.sendMessage (pystr "aa") false,
        BAction.editMessage 0 (pystr "aaaa") false, BAction.sleep 3000,
        BAction.editMessage 0 (pystr "aaaaaa") true, BAction.sleep 10,
        BAction.recordChatUsage 3 7] ∧
    ((promptHandler envC3 { lastMessage := [] } updHello).2.filter
      (fun a => a == BAction.editMessage 0 (pystr "aaaa") false)).length = 1 := by
  decide

/-- The edit-branch state after a failed edit: the attempt is logged, the
backoff accumulator grows by 5, and `extra` sleeping happens. -/
def editFailState (st : StreamState) (content : PyStr) (id : Nat) (um : Bool)
    (rest : List NetOutcome) (extra : List BAction) : StreamState := { st with
  prev := content
  oracle := rest
  backoff := st.backoff + 5
  acts := st.acts ++ BAction.editMessage id content um :: extra }

/-- The edit-branch state after a successful edit: message text replaced,
10 ms pause, iteration finished. -/
def editOkState (st : StreamState) (content tokens : PyStr) (id : Nat) (um : Bool)
    (rest : List NetOutcome) : StreamState :=
  finishIter { st with
    prev := content
    oracle := rest
    msgs := st.msgs.set id (some content)
    acts := st.acts ++ [BAction.editMessage id content um, BAction.sleep 10] } tokens

/-- C3 (amended): in the streaming edit branch, a rate-limit ("retry after N
seconds") failure adds 5 to the backoff accumulator and sleeps the
platform-specified duration, a timeout adds 5 and sleeps 0.5 s, any other
edit failure adds 5 without sleeping, and every successful edit is followed
by a 10-millisecond pause — but after a failure the loop continues with the
next yielded pair; the failed (partial_text, token_marker) pair is not
retried. -/
theorem c3_streaming_backoff_semantics (env : BotEnv) (st : StreamState)
    (content tokens : PyStr) (id : Nat)
    (hm : st.sentMessage = some id)
    (hcond : intAbs content.length st.prev.length >
        env.get_stream_cutoff_values content + st.backoff ∨ tokens ≠ nfMarker) :
    (∀ n rest, st.oracle = .retryAfter n :: rest →
      editPhase env st content tokens =
        editFailState st content id (tokens != nfMarker) rest [BAction.sleep (1000 * n)]) ∧
    (∀ rest, st.oracle = .timedOut :: rest →
      editPhase env st content tokens =
        editFailState st content id (tokens != nfMarker) rest [BAction.sleep 500]) ∧
    (∀ rest, st.oracle = .err :: rest →
      editPhase env st content tokens =
        editFailState st content id (tokens != nfMarker) rest []) ∧
    (∀ rest, st.oracle = .ok :: rest →
      editPhase env st content tokens =
        editOkState st content tokens id (tokens != nfMarker) rest) := by
  refine ⟨?_, ?_, ?_, ?_⟩
  · intro n rest ho
    simp [editPhase, hcond, hm, attemptNet, ho, editFailState]
  · intro rest ho
    simp [editPhase, hcond, hm, attemptNet, ho, editFailState]
  · intro rest ho
    simp [editPhase, hcond, hm, attemptNet, ho, editFailState]
  · intro rest ho
    simp [editPhase, hcond, hm, attemptNet, ho, editOkState]

/-- A concrete mid-stream state displaying message 0 with text "aa". -/
def stMid (oracle : List NetOutcome) : StreamState :=
  { i := 1, prev := pystr "aa", sentMessage := some 0, backoff := 0, streamChunk := 0,
    msgs := [some (pystr "aa")], totalTokens := 0, acts := [], oracle := oracle }

/-- C3 amended-claim witness at a concrete state and content for each of the
four edit outcomes. -/
theorem c3_streaming_backoff_semantics_witness :
    editPhase envPlain (stMid [.retryAfter 3]) (pystr "aaaa") nfMarker =
      editFailState (stMid [.retryAfter 3]) (pystr "aaaa") 0 false [] [BAction.sleep 3000] ∧
    editPhase envPlain (stMid [.timedOut]) (pystr "aaaa") nfMarker =
      editFailState (stMid [.timedOut]) (pystr "aaaa") 0 false [] [BAction.sleep 500] ∧
    editPhase envPlain (stMid [.err]) (pystr "aaaa") nfMarker =
      editFailState (stMid [.err]) (pystr "aaaa") 0 false [] [] ∧
    editPhase envPlain (stMid [.ok]) (pystr "aaaa") nfMarker =
      editOkState (stMid [.ok]) (pystr "aaaa") nfMarker 0 false [] :=
  ⟨(c3_streaming_backoff_semantics envPlain (stMid [.retryAfter 3]) (pystr "aaaa") nfMarker 0
      rfl (by decide)).1 3 [] rfl,
    (c3_streaming_backoff_semantics envPlain (stMid [.timedOut]) (pystr "aaaa") nfMarker 0
      rfl (by decide)).2.1 [] rfl,
    (c3_streaming_backoff_semantics envPlain (stMid [.err]) (pystr "aaaa") nfMarker 0
      rfl (by decide)).2.2.1 [] rfl,
    (c3_streaming_backoff_semantics envPlain (stMid [.ok]) (pystr "aaaa") nfMarker 0
      rfl (by decide)).2.2.2 [] rfl⟩

/-- Bool predicate for message-send actions. -/
@[simp] def isSendAct : BAction → Bool
  | .sendMessage _ _ => true
  | _ => false

/-- Number of messages sent in an action trace. -/
@[simp] def sendCount : List BAction → Nat
  | [] => 0
  | a :: l => (if isSendAct a then 1 else 0) + sendCount l

/-- Send counting distributes over trace concatenation. -/
@[simp] theorem sendCount_append (l m : List BAction) :
    sendCount (l ++ m) = sendCount l + sendCount m := by
  induction l with
  | nil => simp
  | cons a l ih => simp [ih]; omega

/-- Finishing an iteration increments `i` and touches nothing else shown. -/
@[simp] theorem finishIter_i (st : StreamState) (tk : PyStr) :
    (finishIter st tk).i = st.i + 1 := by
  unfold finishIter
  split <;> rfl

/-- Finishing an iteration keeps the message list. -/
@[simp] theorem finishIter_msgs (st : StreamState) (tk : PyStr) :
    (finishIter st tk).msgs = st.msgs := by
  unfold finishIter
  split <;> rfl

/-- Finishing an iteration keeps the displayed-message pointer. -/
@[simp] theorem finishIter_sent (st : StreamState) (tk : PyStr) :
    (finishIter st tk).sentMessage = st.sentMessage := by
  unfold finishIter
  split <;> rfl

/-- Finishing an iteration keeps the chunk counter. -/
@[simp] theorem finishIter_streamChunk (st : StreamState) (tk : PyStr) :
    (finishIter st tk).streamChunk = st.streamChunk := by
  unfold finishIter
  split <;> rfl

/-- Finishing an iteration keeps the network oracle. -/
@[simp] theorem finishIter_oracle (st : StreamState) (tk : PyStr) :
    (finishIter st tk).oracle = st.oracle := by
  unfold finishIter
  split <;> rfl

/-- Loop invariant before the overflow: exactly one live sent message, which
is displayed, no chunk split yet, at least one iteration done, all network
operations succeeding. -/
def phase1 (st : StreamState) : Prop :=
  (∃ t, st.msgs = [some t]) ∧ st.sentMessage = some 0 ∧ st.streamChunk = 0 ∧
    0 < st.i ∧ st.oracle = [] ∧ sendCount st.acts = 1

/-- Loop invariant after the overflow split on crossing text `cj`: the first
message is finalized to the pre-boundary chunk of `cj`, a second message is
live and displayed, and exactly two sends happened. -/
def phase2 (cj : PyStr) (st : StreamState) : Prop :=
  (∃ t, st.msgs = [some (cj.take 4096), some t]) ∧ st.sentMessage = some 1 ∧
    st.streamChunk = 1 ∧ 0 < st.i ∧ st.oracle = [] ∧ sendCount st.acts = 2

/-- Skipped edit: the branch condition failing just finishes the iteration. -/
theorem editPhase_skip (env : BotEnv) (st : StreamState) (content tokens : PyStr)
    (hcond : ¬ (intAbs content.length st.prev.length >
      env.get_stream_cutoff_values content + st.backoff ∨ tokens ≠ nfMarker)) :
    editPhase env st content tokens = finishIter st tokens := by
  simp [editPhase, hcond]

/-- Edit with an exhausted (all-success) oracle behaves like a success. -/
theorem editPhase_ok_empty (env : BotEnv) (st : StreamState) (content tokens : PyStr)
    (id : Nat) (hm : st.sentMessage = some id)
    (hcond : intAbs content.length st.prev.length >
      env.get_stream_cutoff_values content + st.backoff ∨ tokens ≠ nfMarker)
    (ho : st.oracle = []) :
    editPhase env st content tokens = editOkState st content tokens id (tokens != nfMarker) [] := by
  simp [editPhase, hcond, hm, attemptNet, ho, editOkState]

/-- The first streamed text (within the limit, all operations succeeding)
establishes the single-message invariant. -/
theorem c4_first_step (env : BotEnv) (c tk : PyStr) (hne : pyStrip c ≠ [])
    (hlen : c.length ≤ 4096) :
    phase1 (streamTxtStep env (initStream []) c tk) := by
  have hchunks := split_into_chunks_short c hlen
  simp [streamTxtStep, hne, hchunks, initStream, firstSend, doSend, attemptNet,
    phase1, sendCount]

/-- Pre-overflow streamed texts (within the limit) preserve the invariant. -/
theorem c4_pre_step (env : BotEnv) (st : StreamState) (c tk : PyStr)
    (hst : phase1 st) (hne : pyStrip c ≠ []) (hlen : c.length ≤ 4096) :
    phase1 (streamTxtStep env st c tk) := by
  obtain ⟨⟨t, hmsgs⟩, hsent, hchunk, hi, horacle, hsend⟩ := hst
  have hchunks := split_into_chunks_short c hlen
  have hi0 : ¬ st.i = 0 := by omega
  have hstep : streamTxtStep env st c tk = editPhase env st c tk := by
    simp [streamTxtStep, hne, hchunks, hi0]
  rw [hstep]
  by_cases hcond : intAbs c.length st.prev.length >
      env.get_stream_cutoff_values c + st.backoff ∨ tk ≠ nfMarker
  · rw [editPhase_ok_empty env st c tk 0 hsent hcond horacle]
    unfold editOkState
    refine ⟨⟨c, ?_⟩, ?_, ?_, ?_, ?_, ?_⟩ <;>
      simp [hmsgs, hsent, hchunk, horacle, hsend, sendCount_append, sendCount]
  · rw [editPhase_skip env st c tk hcond]
    exact ⟨⟨t, by simp [hmsgs]⟩, by simp [hsent], by simp [hchunk], by simp,
      by simp [horacle], by simp [hsend]⟩

/-- The crossing text performs the overflow split: the displayed message is
finalized to the pre-boundary chunk and a second message carries the tail. -/
theorem c4_cross_step (env : BotEnv) (st : StreamState) (cj tk : PyStr)
    (hst : phase1 st) (hne : pyStrip cj ≠ [])
    (hlen1 : 4096 < cj.length) (hlen2 : cj.length ≤ 8192) :
    phase2 cj (streamTxtStep env st cj tk) ∧
    (streamTxtStep env st cj tk).msgs = [some (cj.take 4096), some (cj.drop 4096)] := by
  obtain ⟨⟨t, hmsgs⟩, hsent, hchunk, hi, horacle, hsend⟩ := hst
  have hchunks := split_into_chunks_two cj hlen1 hlen2
  have hdroplen : 0 < (cj.drop 4096).length := by
    simp only [List.length_drop]
    omega
  have hstep : streamTxtStep env st cj tk =
      splitPath st [cj.take 4096, cj.drop 4096] := by
    simp [streamTxtStep, hne, hchunks, hchunk]
  rw [hstep]
  have hsp : splitPath st [cj.take 4096, cj.drop 4096] = { st with
      streamChunk := st.streamChunk + 1
      sentMessage := some (st.msgs.set 0 (some (cj.take 4096))).length
      msgs := st.msgs.set 0 (some (cj.take 4096)) ++ [some (cj.drop 4096)]
      acts := st.acts ++ [BAction.editMessage 0 (cj.take 4096) true] ++
        [BAction.sendMessage (cj.drop 4096) false] } := by
    simp [splitPath, hsent, attemptNet, horacle, hdroplen, hlen1, penultChunk]
  rw [hsp]
  constructor
  · refine ⟨⟨cj.drop 4096, ?_⟩, ?_, ?_, ?_, ?_, ?_⟩ <;>
      simp [hmsgs, hchunk, hi, horacle, hsend, sendCount_append, sendCount, penultChunk]
  · simp [hmsgs]

/-- Post-overflow streamed texts (still within two chunks) preserve the
two-message invariant. -/
theorem c4_post_step (env : BotEnv) (st : StreamState) (cj c tk : PyStr)
    (hst : phase2 cj st) (hne : pyStrip c ≠ [])
    (hlen1 : 4096 < c.length) (hlen2 : c.length ≤ 8192) :
    phase2 cj (streamTxtStep env st c tk) ∧
    (tk ≠ nfMarker →
      (streamTxtStep env st c tk).msgs = [some (cj.take 4096), some (c.drop 4096)]) := by
  obtain ⟨⟨t, hmsgs⟩, hsent, hchunk, hi, horacle, hsend⟩ := hst
  have hchunks := split_into_chunks_two c hlen1 hlen2
  have hi0 : ¬ st.i = 0 := by omega
  have hstep : streamTxtStep env st c tk = editPhase env st (c.drop 4096) tk := by
    simp [streamTxtStep, hne, hchunks, hchunk, hi0]
  rw [hstep]
  by_cases hcond : intAbs (c.drop 4096).length st.prev.length >
      env.get_stream_cutoff_values (c.drop 4096) + st.backoff ∨ tk ≠ nfMarker
  · rw [editPhase_ok_empty env st (c.drop 4096) tk 1 hsent hcond horacle]
    unfold editOkState
    constructor
    · refine ⟨⟨c.drop 4096, ?_⟩, ?_, ?_, ?_, ?_, ?_⟩ <;>
        simp [hmsgs, hsent, hchunk, horacle, hsend, sendCount_append, sendCount]
    · intro _
      simp [hmsgs]
  · rw [editPhase_skip env st (c.drop 4096) tk hcond]
    have htknf : tk = nfMarker := by
      by_contra hx
      exact hcond (Or.inr hx)
    constructor
    · exact ⟨⟨t, by simp [hmsgs]⟩, by simp [hsent], by simp [hchunk], by simp,
        by simp [horacle], by simp [hsend]⟩
    · intro hx
      exact absurd htknf hx

/-- The final streamed text (marker numeric) forces a last edit of the second
message; the trace then contains exactly the two sends. -/
theorem c4_final_step (env : BotEnv) (st : StreamState) (cj cl tk : PyStr)
    (hst : phase2 cj st) (hne : pyStrip cl ≠ [])
    (hlen1 : 4096 < cl.length) (hlen2 : cl.length ≤ 8192) (htk : tk ≠ nfMarker) :
    (streamTxtStep env st cl tk).msgs = [some (cj.take 4096), some (cl.drop 4096)] ∧
    sendCount (streamTxtStep env st cl tk).acts = 2 := by
  have h2 := (c4_post_step env st cj cl tk hst hne hlen1 hlen2).1
  have hmsgs := (c4_post_step env st cj cl tk hst hne hlen1 hlen2).2 htk
  exact ⟨hmsgs, h2.2.2.2.2.2⟩

/-- A loop over a prefix that never short-circuits composes with the rest. -/
theorem streamLoop_append (env : BotEnv) (xs ys : List (ContentV × PyStr))
    (st : StreamState) (h : (streamLoop env st xs).2 = none) :
    streamLoop env st (xs ++ ys) = streamLoop env (streamLoop env st xs).1 ys := by
  induction xs generalizing st with
  | nil => rfl
  | cons x xs ih =>
      match x with
      | (.txt c, tk) =>
          simp only [List.cons_append, streamLoop, streamStep]
          exact ih _ (by simpa [streamLoop, streamStep] using h)
      | (.direct d, tk) => simp [streamLoop, streamStep] at h

/-- Folding within-limit texts through the loop preserves the pre-overflow
invariant. -/
theorem c4_pre_loop (env : BotEnv) (pre : List PyStr) (st : StreamState)
    (hst : phase1 st) (hpre : ∀ c ∈ pre, pyStrip c ≠ [] ∧ c.length ≤ 4096) :
    phase1 (streamLoop env st (pre.map fun c => (ContentV.txt c, nfMarker))).1 := by
  induction pre generalizing st with
  | nil => simpa [streamLoop] using hst
  | cons c cs ih =>
      simp only [List.map_cons, streamLoop, streamStep]
      exact ih (streamTxtStep env st c nfMarker)
        (c4_pre_step env st c nfMarker hst (hpre c (by simp)).1 (hpre c (by simp)).2)
        (fun x hx => hpre x (by simp [hx]))

/-- Folding two-chunk texts through the loop preserves the post-overflow
invariant. -/
theorem c4_post_loop (env : BotEnv) (post : List PyStr) (cj : PyStr) (st : StreamState)
    (hst : phase2 cj st)
    (hpost : ∀ c ∈ post, pyStrip c ≠ [] ∧ 4096 < c.length ∧ c.length ≤ 8192) :
    phase2 cj (streamLoop env st (post.map fun c => (ContentV.txt c, nfMarker))).1 := by
  induction post generalizing st with
  | nil => simpa [streamLoop] using hst
  | cons c cs ih =>
      simp only [List.map_cons, streamLoop, streamStep]
      exact ih (streamTxtStep env st c nfMarker)
        ((c4_post_step env st cj c nfMarker hst (hpost c (by simp)).1
          (hpost c (by simp)).2.1 (hpost c (by simp)).2.2).1)
        (fun x hx => hpost x (by simp [hx]))

/-- A prefix longer than the cut determines the first 4096 characters. -/
theorem take_4096_of_prefix (cj cl : PyStr) (h : cj <+: cl) (hn : 4096 ≤ cj.length) :
    cj.take 4096 = cl.take 4096 := by
  obtain ⟨tail, rfl⟩ := h
  rw [List.take_append_eq_append_take]
  have hz : 4096 - cj.length = 0 := by omega
  simp [hz]

/-- The realized stream of the overflow scenario: growing texts with the
in-progress marker, a crossing text, further two-chunk texts, and a final
text carrying the numeric total-token marker. -/
def overflowStream (pre : List PyStr) (cj : PyStr) (post : List PyStr) (cl tk : PyStr) :
    List (ContentV × PyStr) :=
  (pre.map fun c => (ContentV.txt c, nfMarker)) ++
    ((ContentV.txt cj, nfMarker) ::
      ((post.map fun c => (ContentV.txt c, nfMarker)) ++ [(ContentV.txt cl, tk)]))

/-- After the overflow, the remaining stream finalizes the second message to
the tail of the final text, with no further sends. -/
theorem c4_tail (env : BotEnv) (cj : PyStr) (post : List PyStr) (cl tk : PyStr)
    (st : StreamState) (hst : phase2 cj st)
    (hpost : ∀ c ∈ post, pyStrip c ≠ [] ∧ 4096 < c.length ∧ c.length ≤ 8192)
    (hcl : pyStrip cl ≠ [] ∧ 4096 < cl.length ∧ cl.length ≤ 8192)
    (htk : tk ≠ nfMarker) :
    (streamLoop env st
      ((post.map fun c => (ContentV.txt c, nfMarker)) ++ [(ContentV.txt cl, tk)])).2 = none ∧
    (streamLoop env st
      ((post.map fun c => (ContentV.txt c, nfMarker)) ++ [(ContentV.txt cl, tk)])).1.msgs =
      [some (cj.take 4096), some (cl.drop 4096)] ∧
    sendCount (streamLoop env st
      ((post.map fun c => (ContentV.txt c, nfMarker)) ++ [(ContentV.txt cl, tk)])).1.acts = 2 := by
  have hB2 : (streamLoop env st (post.map fun c => (ContentV.txt c, nfMarker))).2 = none := by
    apply streamLoop_no_direct
    intro x hx
    simp at hx
    obtain ⟨c, hc, rfl⟩ := hx
    rfl
  rw [streamLoop_append env _ [(ContentV.txt cl, tk)] st hB2]
  have hph := c4_post_loop env post cj st hst hpost
  have hfin := c4_final_step env _ cj cl tk hph hcl.1 hcl.2.1 hcl.2.2 htk
  simp only [streamLoop, streamStep]
  exact ⟨by trivial, hfin.1, hfin.2⟩

/-- C4: feeding the streaming loop a monotonically growing text that crosses
the 4096-character chunk boundary exactly once mid-stream, with all edits
succeeding, produces exactly two sent messages; the first is finalized to
exactly the pre-boundary chunk of the final text, the second carries the
remainder, and their concatenation is the final text (nothing duplicated or
dropped). -/
theorem c4_streaming_overflow_split (env : BotEnv) (p0 : PyStr) (pre post : List PyStr)
    (cj cl tk : PyStr)
    (hpre : ∀ c ∈ p0 :: pre, pyStrip c ≠ [] ∧ c.length ≤ 4096)
    (hcj : pyStrip cj ≠ [] ∧ 4096 < cj.length ∧ cj.length ≤ 8192)
    (hpost : ∀ c ∈ post, pyStrip c ≠ [] ∧ 4096 < c.length ∧ c.length ≤ 8192)
    (hcl : pyStrip cl ≠ [] ∧ 4096 < cl.length ∧ cl.length ≤ 8192)
    (hcjcl : cj <+: cl) (htk : tk ≠ nfMarker) :
    (streamLoop env (initStream []) (overflowStream (p0 :: pre) cj post cl tk)).2 = none ∧
    (streamLoop env (initStream []) (overflowStream (p0 :: pre) cj post cl tk)).1.msgs =
      [some (cl.take 4096), some (cl.drop 4096)] ∧
    sendCount
      (streamLoop env (initStream []) (overflowStream (p0 :: pre) cj post cl tk)).1.acts = 2 ∧
    cl.take 4096 ++ cl.drop 4096 = cl := by
  have hA2 : (streamLoop env (initStream [])
      ((p0 :: pre).map fun c => (ContentV.txt c, nfMarker))).2 = none := by
    apply streamLoop_no_direct
    intro x hx
    simp at hx
    rcases hx with rfl | ⟨c, hc, rfl⟩ <;> rfl
  have hphase1 : phase1 (streamLoop env (initStream [])
      ((p0 :: pre).map fun c => (ContentV.txt c, nfMarker))).1 := by
    simp only [List.map_cons, streamLoop, streamStep]
    exact c4_pre_loop env pre _
      (c4_first_step env p0 nfMarker (hpre p0 (by simp)).1 (hpre p0 (by simp)).2)
      (fun c hc => hpre c (by simp [hc]))
  have hsplit : streamLoop env (initStream []) (overflowStream (p0 :: pre) cj post cl tk) =
      streamLoop env
        (streamLoop env (initStream []) ((p0 :: pre).map fun c => (ContentV.txt c, nfMarker))).1
        ((ContentV.txt cj, nfMarker) ::
          ((post.map fun c => (ContentV.txt c, nfMarker)) ++ [(ContentV.txt cl, tk)])) := by
    unfold overflowStream
    exact streamLoop_append env _ _ _ hA2
  have hcross := c4_cross_step env
    (streamLoop env (initStream []) ((p0 :: pre).map fun c => (ContentV.txt c, nfMarker))).1
    cj nfMarker hphase1 hcj.1 hcj.2.1 hcj.2.2
  have htail := c4_tail env cj post cl tk _ hcross.1 hpost hcl htk
  rw [hsplit]
  simp only [streamLoop, streamStep]
  have htake := take_4096_of_prefix cj cl hcjcl (le_of_lt hcj.2.1)
  rw [htake] at htail
  exact ⟨htail.1, htail.2.1, htail.2.2, List.take_append_drop _ _⟩

/-- Every character of an all-'a' text is non-whitespace. -/
theorem no_ws_replicate (n : Nat) : ∀ x ∈ List.replicate n 'a', Char.isWhitespace x = false := by
  intro x hx
  rw [List.eq_of_mem_replicate hx]
  decide

/-- Stripping a text without whitespace characters leaves it unchanged. -/
theorem pyStrip_no_ws (l : PyStr) (h : ∀ x ∈ l, Char.isWhitespace x = false) :
    pyStrip l = l := by
  unfold pyStrip
  have h1 : ∀ (m : PyStr), (∀ x ∈ m, Char.isWhitespace x = false) →
      m.dropWhile Char.isWhitespace = m := by
    intro m hm
    cases m with
    | nil => rfl
    | cons a t => simp [List.dropWhile_cons, hm a (by simp)]
  rw [h1 l h, h1 l.reverse (fun x hx => h x (List.mem_reverse.mp hx)), List.reverse_reverse]

/-- A repeated text with a positive count is nonempty. -/
theorem replicate_ne_nil_c (n : Nat) (hn : 0 < n) (c : Char) : List.replicate n c ≠ [] := by
  intro h
  have hl := congrArg List.length h
  rw [List.length_replicate] at hl
  simp at hl
  omega

/-- C4 witness: a concrete stream growing from 10 to 4200 characters that
crosses the boundary once at 4097 characters produces exactly the two-message
split. -/
theorem c4_streaming_overflow_split_witness :
    (pyStrip (List.replicate 4097 'a') ≠ [] ∧ 4096 < (List.replicate 4097 'a').length ∧
      (List.replicate 4097 'a').length ≤ 8192) ∧
    (streamLoop envPlain (initStream [])
      (overflowStream [List.replicate 10 'a'] (List.replicate 4097 'a') []
        (List.replicate 4200 'a') (pystr "9"))).2 = none ∧
    (streamLoop envPlain (initStream [])
      (overflowStream [List.replicate 10 'a'] (List.replicate 4097 'a') []
        (List.replicate 4200 'a') (pystr "9"))).1.msgs =
      [some ((List.replicate 4200 'a').take 4096), some ((List.replicate 4200 'a').drop 4096)] ∧
    sendCount (streamLoop envPlain (initStream [])
      (overflowStream [List.replicate 10 'a'] (List.replicate 4097 'a') []
        (List.replicate 4200 'a') (pystr "9"))).1.acts = 2 ∧
    (List.replicate 4200 'a').take 4096 ++ (List.replicate 4200 'a').drop 4096 =
      List.replicate 4200 'a' :=
  ⟨⟨by rw [pyStrip_no_ws _ (no_ws_replicate _)]; exact replicate_ne_nil_c 4097 (by omega) 'a',
      by rw [List.length_replicate]; omega, by rw [List.length_replicate]; omega⟩,
    c4_streaming_overflow_split envPlain (List.replicate 10 'a') [] []
      (List.replicate 4097 'a') (List.replicate 4200 'a') (pystr "9")
      (by
        intro c hc
        have hc10 : c = List.replicate 10 'a' := List.mem_singleton.mp hc
        subst hc10
        refine ⟨?_, by rw [List.length_replicate]; omega⟩
        rw [pyStrip_no_ws _ (no_ws_replicate _)]
        exact replicate_ne_nil_c 10 (by omega) 'a')
      ⟨by rw [pyStrip_no_ws _ (no_ws_replicate _)]; exact replicate_ne_nil_c 4097 (by omega) 'a',
        by rw [List.length_replicate]; omega, by rw [List.length_replicate]; omega⟩
      (by intro c hc; exact absurd hc (List.not_mem_nil c))
      ⟨by rw [pyStrip_no_ws _ (no_ws_replicate _)]; exact replicate_ne_nil_c 4200 (by omega) 'a',
        by rw [List.length_replicate]; omega, by rw [List.length_replicate]; omega⟩
      ⟨List.replicate 103 'a', by rw [← List.replicate_add]⟩ (by decide)⟩

/-- Loop state of the streaming edit loop inside `handle_callback_inline_query`
(src/bot/message_handlers.py, lines 596-652). -/
structure InlineSt where
  i : Nat
  prev : PyStr
  backoff : Nat
  totalTokens : Nat
  acts : List BAction
  oracle : List NetOutcome
  deriving Repr

/-- Pop the next network outcome in the inline loop. -/
def attemptNetI (st : InlineSt) : NetOutcome × InlineSt :=
  match st.oracle with
  | [] => (.ok, st)
  | o :: rest => (o, { st with oracle := rest })

/-- End of one inline iteration (lines 650-652). -/
def finishIterI (st : InlineSt) (tokens : PyStr) : InlineSt :=
  let st := { st with i := st.i + 1 }
  if tokens ≠ nfMarker then { st with totalTokens := pyInt tokens } else st

/-- The text of the first inline streaming edit (line 618):
`f'{query}\n\n{answer_tr}:\n{content}'` — sent with no truncation. -/
def inline_first_text (query answer_tr content : PyStr) : PyStr :=
  query ++ pystr "\n\n" ++ answer_tr ++ pystr ":\n" ++ content

/-- The text of a subsequent inline streaming edit (lines 626-631), truncated
to the first 4096 characters. -/
def inline_edit_text (query answer_tr content : PyStr) (um : Bool) : PyStr :=
  pyTake 4096 (query ++ pystr "\n\n" ++ (if um then pystr "_" else []) ++ answer_tr ++
    pystr ":" ++ (if um then pystr "_" else []) ++ pystr "\n" ++ content)

/-- The non-streaming final answer text (lines 673-676), truncated to the
first 4096 characters. -/
def inline_final_text (query answer_tr response : PyStr) : PyStr :=
  pyTake 4096 (query ++ pystr "\n\n_" ++ answer_tr ++ pystr ":_\n" ++ response)

/-- One iteration of the inline streaming edit loop on a text payload
(lines 608-652). -/
def inlineTxtStep (env : BotEnv) (query answer_tr : PyStr) (st : InlineSt)
    (content tokens : PyStr) : InlineSt :=
  if pyStrip content = [] then st
  else
    let cutoff := env.get_stream_cutoff_values content + st.backoff
    if st.i = 0 then
      let (o, st) := attemptNetI st
      let st := { st with
        acts := st.acts ++ [BAction.inlineEdit (inline_first_text query answer_tr content) true] }
      match o with
      | .ok => finishIterI st tokens
      | _ => st
    else if intAbs content.length st.prev.length > cutoff ∨ tokens ≠ nfMarker then
      let st := { st with prev := content }
      let use_markdown : Bool := tokens != nfMarker
      let (o, st) := attemptNetI st
      let st := { st with
        acts := st.acts ++
          [BAction.inlineEdit (inline_edit_text query answer_tr content use_markdown)
            use_markdown] }
      match o with
      | .ok => finishIterI { st with acts := st.acts ++ [BAction.sleep 10] } tokens
      | .retryAfter n =>
          { st with backoff := st.backoff + 5, acts := st.acts ++ [BAction.sleep (1000 * n)] }
      | .timedOut => { st with backoff := st.backoff + 5, acts := st.acts ++ [BAction.sleep 500] }
      | .err => { st with backoff := st.backoff + 5 }
    else finishIterI st tokens

/-- Run the inline streaming loop; `some d` reports the Direct Result
short-circuit of lines 600-606. -/
def inlineStreamLoop (env : BotEnv) (query answer_tr : PyStr) (st : InlineSt) :
    List (ContentV × PyStr) → InlineSt × Option Nat
  | [] => (st, none)
  | (.direct d, _) :: _ => (st, some d)
  | (.txt c, tk) :: rest =>
      inlineStreamLoop env query answer_tr (inlineTxtStep env query answer_tr st c tk) rest

/-- Initial inline loop state (lines 596-598). -/
def initInline (oracle : List NetOutcome) : InlineSt :=
  { i := 0, prev := [], backoff := 0, totalTokens := 0, acts := [], oracle := oracle }

/-- The non-streaming inline responder `_send_inline_query_response`
(lines 655-680): loading placeholder, blocking call, then either the Direct
Result unavailability notice with temp-file cleanup or the truncated final
answer edit. -/
def sendInlineQueryResponse (env : BotEnv) (query answer_tr loading unavailable : PyStr)
    (uid : Nat) : List BAction :=
  [BAction.inlineEdit (query ++ pystr "\n\n_" ++ answer_tr ++ pystr ":_\n" ++ loading) true,
    BAction.backendCall uid query] ++
  match env.get_chat_response query with
  | .error _ => [BAction.notice .chat_fail]
  | .ok (.direct d, _) =>
      [BAction.cleanupDirect d,
        BAction.inlineEdit (query ++ pystr "\n\n_" ++ answer_tr ++ pystr ":_\n" ++ unavailable)
          true]
  | .ok (.txt r, _) => [BAction.inlineEdit (inline_final_text query answer_tr r) true]

/-- Finishing an inline iteration keeps the action trace. -/
@[simp] theorem finishIterI_acts (st : InlineSt) (tk : PyStr) :
    (finishIterI st tk).acts = st.acts := by
  unfold finishIterI
  split <;> rfl

/-- Truncation really caps the length. -/
theorem pyTake_le (n : Nat) (s : PyStr) : (pyTake n s).length ≤ n := by
  simp [pyTake, List.length_take]

/-- Subsequent inline edit texts are capped at 4096 characters. -/
theorem inline_edit_text_le (q a c : PyStr) (um : Bool) :
    (inline_edit_text q a c um).length ≤ 4096 := pyTake_le 4096 _

/-- The non-streaming final answer text is capped at 4096 characters. -/
theorem inline_final_text_le (q a r : PyStr) :
    (inline_final_text q a r).length ≤ 4096 := pyTake_le 4096 _

/-- The first inline streaming edit issues the untruncated first-edit text. -/
theorem inline_first_step (env : BotEnv) (q a : PyStr) (st : InlineSt)
    (content tokens : PyStr) (hne : pyStrip content ≠ []) (hi : st.i = 0)
    (ho : st.oracle = []) :
    inlineTxtStep env q a st content tokens =
      finishIterI { st with
        acts := st.acts ++ [BAction.inlineEdit (inline_first_text q a content) true] }
        tokens := by
  simp [inlineTxtStep, hne, hi, attemptNetI, ho]

/-- C5 counterexample: with a 4100-character cached query, the first streaming
edit of the inline callback handler (line 618 of src/bot/message_handlers.py)
passes a 4109-character text to the message edit — it is not truncated to
4096 characters, refuting the claim for the first in-progress edit. -/
theorem c5_counterexample_first_inline_edit_untruncated :
    (inlineStreamLoop envPlain (List.replicate 4100 'a') (pystr "ans") (initInline [])
      [(ContentV.txt (pystr "hi"), pystr "5")]).1.acts =
      [BAction.inlineEdit
        (inline_first_text (List.replicate 4100 'a') (pystr "ans") (pystr "hi")) true] ∧
    4096 < (inline_first_text (List.replicate 4100 'a') (pystr "ans") (pystr "hi")).length := by
  constructor
  · simp only [inlineStreamLoop]
    rw [inline_first_step envPlain _ _ _ _ _ (by decide) rfl rfl]
    simp only [finishIterI_acts, initInline, List.nil_append]
  · have e1 : (pystr "\n\n").length = 2 := rfl
    have e2 : (pystr "ans").length = 3 := rfl
    have e3 : (pystr ":\n").length = 2 := rfl
    have e4 : (pystr "hi").length = 2 := rfl
    simp only [inline_first_text, List.length_append, List.length_replicate, e1, e2, e3, e4]
    omega

/-- C5 (amended): in the inline callback handler, every subsequent streaming
edit (iteration index at least 1) and the non-streaming final answer edit are
hard-truncated to at most the first 4096 characters; the first streaming edit
(iteration index 0) is issued untruncated. -/
theorem c5_inline_truncation (env : BotEnv) (q a : PyStr) (st : InlineSt)
    (content tokens : PyStr) (hi : st.i ≠ 0) :
    (∃ L, (inlineTxtStep env q a st content tokens).acts = st.acts ++ L ∧
      ∀ t md, BAction.inlineEdit t md ∈ L → t.length ≤ 4096) ∧
    (∀ loading unavailable uid r tt,
      env.get_chat_response q = .ok (.txt r, tt) →
      sendInlineQueryResponse env q a loading unavailable uid =
        [BAction.inlineEdit (q ++ pystr "\n\n_" ++ a ++ pystr ":_\n" ++ loading) true,
          BAction.backendCall uid q,
          BAction.inlineEdit (inline_final_text q a r) true] ∧
      (inline_final_text q a r).length ≤ 4096) := by
  constructor
  · by_cases hne : pyStrip content = []
    · exact ⟨[], by simp [inlineTxtStep, hne], by simp⟩
    · by_cases hcond : intAbs content.length st.prev.length >
          env.get_stream_cutoff_values content + st.backoff ∨ tokens ≠ nfMarker
      · rcases ho : st.oracle with _ | ⟨o, rest⟩
        · refine ⟨[BAction.inlineEdit (inline_edit_text q a content (tokens != nfMarker))
              (tokens != nfMarker), BAction.sleep 10],
            by simp [inlineTxtStep, hne, hi, hcond, attemptNetI, ho], ?_⟩
          intro t md hmem
          simp at hmem
          obtain ⟨rfl, -⟩ := hmem
          exact inline_edit_text_le q a content _
        · cases o with
          | ok =>
              refine ⟨[BAction.inlineEdit (inline_edit_text q a content (tokens != nfMarker))
                  (tokens != nfMarker), BAction.sleep 10],
                by simp [inlineTxtStep, hne, hi, hcond, attemptNetI, ho], ?_⟩
              intro t md hmem
              simp at hmem
              obtain ⟨rfl, -⟩ := hmem
              exact inline_edit_text_le q a content _
          | retryAfter n =>
              refine ⟨[BAction.inlineEdit (inline_edit_text q a content (tokens != nfMarker))
                  (tokens != nfMarker), BAction.sleep (1000 * n)],
                by simp [inlineTxtStep, hne, hi, hcond, attemptNetI, ho], ?_⟩
              intro t md hmem
              simp at hmem
              obtain ⟨rfl, -⟩ := hmem
              exact inline_edit_text_le q a content _
          | timedOut =>
              refine ⟨[BAction.inlineEdit (inline_edit_text q a content (tokens != nfMarker))
                  (tokens != nfMarker), BAction.sleep 500],
                by simp [inlineTxtStep, hne, hi, hcond, attemptNetI, ho], ?_⟩
              intro t md hmem
              simp at hmem
              obtain ⟨rfl, -⟩ := hmem
              exact inline_edit_text_le q a content _
          | err =>
              refine ⟨[BAction.inlineEdit (inline_edit_text q a content (tokens != nfMarker))
                  (tokens != nfMarker)],
                by simp [inlineTxtStep, hne, hi, hcond, attemptNetI, ho], ?_⟩
              intro t md hmem
              simp at hmem
              obtain ⟨rfl, -⟩ := hmem
              exact inline_edit_text_le q a content _
      · exact ⟨[], by simp [inlineTxtStep, hne, hi, hcond], by simp⟩
  · intro loading unavailable uid r tt hresp
    refine ⟨by simp [sendInlineQueryResponse, hresp], inline_final_text_le q a r⟩

/-- A concrete inline loop state past the first iteration. -/
def stInline1 : InlineSt :=
  { i := 1, prev := [], backoff := 0, totalTokens := 0, acts := [], oracle := [] }

/-- C5 amended-claim witness at a concrete post-first-iteration state and the
concrete non-streaming environment. -/
theorem c5_inline_truncation_witness :
    stInline1.i ≠ 0 ∧
    ((∃ L, (inlineTxtStep envPlain (pystr "q") (pystr "ans") stInline1 (pystr "hello")
        (pystr "5")).acts = stInline1.acts ++ L ∧
      ∀ t md, BAction.inlineEdit t md ∈ L → t.length ≤ 4096) ∧
    (∀ loading unavailable uid r tt,
      envPlain.get_chat_response (pystr "q") = .ok (.txt r, tt) →
      sendInlineQueryResponse envPlain (pystr "q") (pystr "ans") loading unavailable uid =
        [BAction.inlineEdit (pystr "q" ++ pystr "\n\n_" ++ pystr "ans" ++ pystr ":_\n" ++ loading)
          true, BAction.backendCall uid (pystr "q"),
          BAction.inlineEdit (inline_final_text (pystr "q") (pystr "ans") r) true] ∧
      (inline_final_text (pystr "q") (pystr "ans") r).length ≤ 4096)) :=
  ⟨by decide,
    c5_inline_truncation envPlain (pystr "q") (pystr "ans") stInline1 (pystr "hello")
      (pystr "5") (by decide)⟩

/-- A file coming into existence on disk (`download_to_drive` / `export`). -/
def fileAdd (fs : List PyStr) (f : PyStr) : List PyStr := if f ∈ fs then fs else fs ++ [f]

/-- `if os.path.exists(f): os.remove(f)`. -/
def fileRemove (fs : List PyStr) (f : PyStr) : List PyStr := fs.filter (fun x => x != f)

/-- Outcomes of the download/transcode/transcription pipeline of the
transcribe handler's `_execute` (src/bot/message_handlers.py lines 54-156). -/
structure TrEnv where
  download_ok : Bool
  download_creates : Bool
  transcode_ok : Bool
  transcode_creates_mp3 : Bool
  transcribe_ok : Bool
  deriving DecidableEq, Repr

/-- Exit path taken by the transcribe handler. -/
inductive TrPath
  | downloadFail
  | transcodeFail
  | success
  | transcribeFail
  deriving DecidableEq, Repr

/-- The file lifecycle of the transcribe handler's `_execute` (lines 54-156):
the download failure path (lines 60-71) returns without removing anything;
the transcode failure path (lines 79-88) removes only the original download;
the transcription try/except (lines 94-151) always runs the `finally` cleanup
of lines 152-156 removing both files.  The user-facing replies and usage
recording of the body are abstracted into the returned exit-path tag. -/
def transcribeExecute (env : TrEnv) (filename : PyStr) (fs0 : List PyStr) :
    List PyStr × TrPath :=
  let filename_mp3 := filename ++ pystr ".mp3"
  let fs1 := if env.download_creates then fileAdd fs0 filename else fs0
  if ¬ env.download_ok then (fs1, .downloadFail)
  else
    let fs2 := if env.transcode_creates_mp3 then fileAdd fs1 filename_mp3 else fs1
    if ¬ env.transcode_ok then (fileRemove fs2 filename, .transcodeFail)
    else
      let fs3 := fileRemove (fileRemove fs2 filename_mp3) filename
      if env.transcribe_ok then (fs3, .success) else (fs3, .transcribeFail)

/-- C6 counterexample: when the media download raises after writing a partial
file (lines 58-71), the handler replies with the failure notice and returns
without any removal — the temporary file named after the unique file
identifier remains, refuting the claim for the download-failure exit path. -/
theorem c6_counterexample_download_failure_leaves_file :
    (transcribeExecute
      { download_ok := false, download_creates := true, transcode_ok := false,
        transcode_creates_mp3 := false, transcribe_ok := false }
      (pystr "f1") []).2 = TrPath.downloadFail ∧
    pystr "f1" ∈ (transcribeExecute
      { download_ok := false, download_creates := true, transcode_ok := false,
        transcode_creates_mp3 := false, transcribe_ok := false }
      (pystr "f1") []).1 := by
  decide

/-- A removed file is gone whatever the starting set. -/
theorem fileRemove_not_mem (fs : List PyStr) (f : PyStr) : f ∉ fileRemove fs f := by
  intro h
  simp [fileRemove, List.mem_filter] at h

/-- Removing one file cannot resurrect another. -/
theorem fileRemove_not_mem_of_not_mem (fs : List PyStr) (f g : PyStr) (h : g ∉ fs) :
    g ∉ fileRemove fs f := by
  intro hmem
  exact h (List.mem_filter.mp hmem).1

/-- C6 (amended): the transcribe handler removes both the downloaded file and
the transcoded mp3 on the success and transcription-exception exit paths (the
`finally` cleanup), and removes the downloaded file on the transcode-failure
path; the download-failure path performs no removal, so a partially written
download persists there. -/
theorem c6_transcribe_temp_file_cleanup (env : TrEnv) (filename : PyStr)
    (fs0 : List PyStr) :
    (env.download_ok = true → env.transcode_ok = true →
      filename ∉ (transcribeExecute env filename fs0).1 ∧
      filename ++ pystr ".mp3" ∉ (transcribeExecute env filename fs0).1) ∧
    (env.download_ok = true → env.transcode_ok = false →
      filename ∉ (transcribeExecute env filename fs0).1) ∧
    (env.download_ok = false → env.download_creates = true →
      filename ∈ (transcribeExecute env filename fs0).1) := by
  refine ⟨?_, ?_, ?_⟩
  · intro hd ht
    unfold transcribeExecute
    simp only [hd, ht, Bool.true_eq_false, not_true_eq_false, if_false, reduceIte]
    constructor
    · by_cases hok : env.transcribe_ok = true <;>
        simp [hok, fileRemove_not_mem]
    · by_cases hok : env.transcribe_ok = true <;>
        simp [hok] <;>
        exact fileRemove_not_mem_of_not_mem _ _ _ (fileRemove_not_mem _ _)
  · intro hd ht
    unfold transcribeExecute
    simp [hd, ht, fileRemove_not_mem]
  · intro hd hc
    unfold transcribeExecute
    simp only [hd, hc, Bool.false_eq_true, not_false_eq_true, if_true, reduceIte]
    simp [fileAdd]
    by_cases hmem : filename ∈ fs0 <;> simp [hmem]

/-- C6 amended-claim witness at concrete environments for the three paths. -/
theorem c6_transcribe_temp_file_cleanup_witness :
    (pystr "f1" ∉ (transcribeExecute
        { download_ok := true, download_creates := true, transcode_ok := true,
          transcode_creates_mp3 := true, transcribe_ok := false } (pystr "f1") []).1 ∧
      pystr "f1" ++ pystr ".mp3" ∉ (transcribeExecute
        { download_ok := true, download_creates := true, transcode_ok := true,
          transcode_creates_mp3 := true, transcribe_ok := false } (pystr "f1") []).1) ∧
    pystr "f1" ∉ (transcribeExecute
      { download_ok := true, download_creates := true, transcode_ok := false,
        transcode_creates_mp3 := true, transcribe_ok := false } (pystr "f1") []).1 ∧
    pystr "f1" ∈ (transcribeExecute
      { download_ok := false, download_creates := true, transcode_ok := false,
        transcode_creates_mp3 := false, transcribe_ok := false } (pystr "f1") []).1 :=
  ⟨(c6_transcribe_temp_file_cleanup
      { download_ok := true, download_creates := true, transcode_ok := true,
        transcode_creates_mp3 := true, transcribe_ok := false } (pystr "f1") []).1 rfl rfl,
    (c6_transcribe_temp_file_cleanup
      { download_ok := true, download_creates := true, transcode_ok := false,
        transcode_creates_mp3 := true, transcribe_ok := false } (pystr "f1") []).2.1 rfl rfl,
    (c6_transcribe_temp_file_cleanup
      { download_ok := false, download_creates := true, transcode_ok := false,
        transcode_creates_mp3 := false, transcribe_ok := false } (pystr "f1") []).2.2 rfl rfl⟩

/-- Key of a Usage Record: a user identifier or the pooled "guests" record. -/
inductive UKey
  | user (id : Nat)
  | guests
  deriving DecidableEq, Repr

/-- A usage event together with the pricing arguments passed at record time
(prices are applied, not stored — modelled by carrying the call arguments). -/
inductive UEvent
  | imageRequest (size : PyStr) (prices : PyStr)
  | ttsRequest (len : Nat) (tts_model : PyStr) (prices : PyStr)
  | transcriptionSeconds (secs : Nat) (price : Nat)
  | chatTokens (tokens : Nat) (price : Nat)
  | visionTokens (tokens : Nat) (price : Nat)
  deriving DecidableEq, Repr

/-- The in-memory usage map `bot.usage`: assoc list of per-key event logs. -/
abbrev Usage := List (UKey × List UEvent)

/-- Python `k in bot.usage`. -/
def hasKey (u : Usage) (k : UKey) : Bool := u.any (fun p => p.1 == k)

/-- Python `bot.usage[k].add_*(...)`: appends the event to the key's log,
raising `KeyError` when the key is missing. -/
def addEvent : Usage → UKey → UEvent → Except Unit Usage
  | [], _, _ => .error ()
  | p :: u, k, e =>
      if p.1 = k then .ok ((k, p.2 ++ [e]) :: u)
      else (addEvent u k e).map (fun u' => p :: u')

/-- Lookup of a key's event log. -/
def lookupU : Usage → UKey → Option (List UEvent)
  | [], _ => none
  | p :: u, k => if p.1 = k then some p.2 else lookupU u k

/-- `if user_id not in bot.usage: bot.usage[user_id] = UsageTracker(...)`. -/
def usageInit (u : Usage) (uid : Nat) : Usage :=
  if hasKey u (.user uid) then u else u ++ [(.user uid, [])]

/-- Configuration values read by the usage-recording snippets. -/
structure UCfg where
  allowed_user_ids : PyStr
  image_prices : PyStr
  tts_model : PyStr
  tts_prices : PyStr
  transcription_price : Nat
  token_price : Nat
  vision_token_price : Nat
  deriving DecidableEq, Repr

/-- The guest-pooled recording pattern shared verbatim by the image, tts,
transcribe and vision handlers: record the event on the user's record, and
when `str(user_id)` is absent from the comma-separated `allowed_user_ids`
AND a `"guests"` record exists in `bot.usage`, record the identical event on
the pooled record as well. -/
def guest_pooled_record (cfg : UCfg) (usage : Usage) (uid : Nat) (e : UEvent) :
    Except Unit Usage := do
  let usage ← addEvent usage (.user uid) e
  if ¬ ((pySplit cfg.allowed_user_ids ',').contains (pyStr uid)) ∧
      hasKey usage .guests then
    addEvent usage .guests e
  else
    pure usage

/-- Usage recording of the image handler (src/bot/command_handlers.py,
lines 244-249). -/
def image_record_usage (cfg : UCfg) (usage : Usage) (uid : Nat) (image_size : PyStr) :
    Except Unit Usage :=
  guest_pooled_record cfg usage uid (.imageRequest image_size cfg.image_prices)

/-- Usage recording of the tts handler (src/bot/command_handlers.py,
lines 290-295). -/
def tts_record_usage (cfg : UCfg) (usage : Usage) (uid : Nat) (text_length : Nat) :
    Except Unit Usage :=
  guest_pooled_record cfg usage uid (.ttsRequest text_length cfg.tts_model cfg.tts_prices)

/-- Transcription-seconds recording of the transcribe handler
(src/bot/message_handlers.py, lines 97-102). -/
def transcribe_record_seconds (cfg : UCfg) (usage : Usage) (uid : Nat) (secs : Nat) :
    Except Unit Usage :=
  guest_pooled_record cfg usage uid (.transcriptionSeconds secs cfg.transcription_price)

/-- Chat-token recording of the transcribe handler's voice-reply branch
(src/bot/message_handlers.py, lines 125-127). -/
def transcribe_record_chat_tokens (cfg : UCfg) (usage : Usage) (uid : Nat) (tokens : Nat) :
    Except Unit Usage :=
  guest_pooled_record cfg usage uid (.chatTokens tokens cfg.token_price)

/-- Vision-token recording of the vision handler
(src/bot/message_handlers.py, lines 343-348). -/
def vision_record_usage (cfg : UCfg) (usage : Usage) (uid : Nat) (tokens : Nat) :
    Except Unit Usage :=
  guest_pooled_record cfg usage uid (.visionTokens tokens cfg.vision_token_price)

/-- A present key has a log. -/
theorem hasKey_lookup (u : Usage) (k : UKey) (h : hasKey u k = true) :
    ∃ v, lookupU u k = some v := by
  induction u with
  | nil => simp [hasKey] at h
  | cons p u ih =>
      by_cases hp : p.1 = k
      · exact ⟨p.2, by simp [lookupU, hp]⟩
      · have h' : hasKey u k = true := by
          simp [hasKey] at h ⊢
          rcases h with h | h
          · exact absurd h hp
          · exact h
        obtain ⟨v, hv⟩ := ih h'
        exact ⟨v, by simp [lookupU, hp, hv]⟩

/-- Appending an event to a present key succeeds, extends exactly that key's
log, and leaves every other key's log and key set unchanged. -/
theorem addEvent_spec (u : Usage) (k : UKey) (e : UEvent) (h : hasKey u k = true) :
    ∃ u' old, addEvent u k e = .ok u' ∧ lookupU u k = some old ∧
      lookupU u' k = some (old ++ [e]) ∧
      (∀ k2, k2 ≠ k → lookupU u' k2 = lookupU u k2) ∧
      (∀ k2, hasKey u' k2 = hasKey u k2) := by
  induction u with
  | nil => simp [hasKey] at h
  | cons p u ih =>
      by_cases hp : p.1 = k
      · refine ⟨(k, p.2 ++ [e]) :: u, p.2, by simp [addEvent, hp], by simp [lookupU, hp],
          by simp [lookupU], ?_, ?_⟩
        · intro k2 hk2
          have hne : ¬ k = k2 := fun hx => hk2 hx.symm
          simp [lookupU, hne, hp]
        · intro k2
          simp [hasKey, hp]
      · have h' : hasKey u k = true := by
          simp [hasKey] at h ⊢
          rcases h with h | h
          · exact absurd h hp
          · exact h
        obtain ⟨u', old, hadd, hold, hnew, hother, hkeys⟩ := ih h'
        refine ⟨p :: u', old, by simp [addEvent, hp, hadd, Except.map], by simp [lookupU, hp, hold],
          by simp [lookupU, hp, hnew], ?_, ?_⟩
        · intro k2 hk2
          by_cases hp2 : p.1 = k2
          · simp [lookupU, hp2]
          · simp [lookupU, hp2, hother k2 hk2]
        · intro k2
          simp [hasKey] at hkeys ⊢
          by_cases hp2 : p.1 = k2
          · simp [hp2]
          · simp [hp2, hkeys k2]

/-- Both the user's and the pooled record receive the identical event. -/
def pooledOk (f : Except Unit Usage) (usage : Usage) (uid : Nat) (e : UEvent) : Prop :=
  ∃ u' uOld gOld, f = .ok u' ∧ lookupU usage (.user uid) = some uOld ∧
    lookupU usage .guests = some gOld ∧ lookupU u' (.user uid) = some (uOld ++ [e]) ∧
    lookupU u' .guests = some (gOld ++ [e])

/-- The pooled record is left untouched. -/
def pooledSkip (f : Except Unit Usage) (usage : Usage) : Prop :=
  ∃ u', f = .ok u' ∧ lookupU u' .guests = lookupU usage .guests

/-- Behaviour of the shared guest-pooled recording pattern. -/
theorem guest_pooled_record_spec (cfg : UCfg) (usage : Usage) (uid : Nat) (e : UEvent)
    (hku : hasKey usage (.user uid) = true) :
    ((pySplit cfg.allowed_user_ids ',').contains (pyStr uid) = false →
      hasKey usage .guests = true →
      pooledOk (guest_pooled_record cfg usage uid e) usage uid e) ∧
    ((pySplit cfg.allowed_user_ids ',').contains (pyStr uid) = true →
      pooledSkip (guest_pooled_record cfg usage uid e) usage) := by
  obtain ⟨u1, uOld, hadd1, huOld, hnew1, hoth1, hkeys1⟩ :=
    addEvent_spec usage (.user uid) e hku
  constructor
  · intro hna hg
    have hna2 : pyStr uid ∉ pySplit cfg.allowed_user_ids ',' := by simpa using hna
    have hg1 : hasKey u1 .guests = true := by rw [hkeys1]; exact hg
    obtain ⟨u2, gOld, hadd2, hgOld, hnew2, hoth2, hkeys2⟩ := addEvent_spec u1 .guests e hg1
    refine ⟨u2, uOld, gOld, ?_, huOld, ?_, ?_, hnew2⟩
    · simp [guest_pooled_record, hadd1, hna2, hg1, hadd2, Bind.bind, Except.bind]
    · rw [← hoth1 .guests (by simp)]
      exact hgOld
    · rw [hoth2 (.user uid) (by simp)]
      exact hnew1
  · intro ha
    have ha2 : pyStr uid ∈ pySplit cfg.allowed_user_ids ',' := by simpa using ha
    refine ⟨u1, ?_, ?_⟩
    · simp [guest_pooled_record, hadd1, ha2, Bind.bind, Except.bind, pure, Except.pure]
    · exact hoth1 .guests (by simp)

/-- A concrete configuration whose allow-list is "1,2". -/
def cfgPool : UCfg :=
  { allowed_user_ids := pystr "1,2", image_prices := pystr "p", tts_model := pystr "m",
    tts_prices := pystr "t", transcription_price := 1, token_price := 1,
    vision_token_price := 2 }

/-- C8 counterexample: user 7 is outside the allow-list "1,2", but with no
pooled "guests" record present in `bot.usage` the guard
`'guests' in bot.usage` (command_handlers.py line 248 etc.) is false, so the
image usage event is recorded only on the user's own record — the pooled
record receives nothing, refuting the unconditional claim. -/
theorem c8_counterexample_no_guests_record :
    (pySplit cfgPool.allowed_user_ids ',').contains (pyStr 7) = false ∧
    image_record_usage cfgPool [(UKey.user 7, [])] 7 (pystr "256x256") =
      .ok [(UKey.user 7, [UEvent.imageRequest (pystr "256x256") (pystr "p")])] ∧
    lookupU [(UKey.user 7, [UEvent.imageRequest (pystr "256x256") (pystr "p")])]
      UKey.guests = none := by
  refine ⟨by decide, by rfl, by rfl⟩

/-- C8 (amended): for every usage event recorded by the image, tts,
transcribe, or vision handler for a user absent from the comma-separated
allowed_user_ids list, both the user's own Usage Record and the pooled
"guests" record receive the identical event — provided a pooled "guests"
record exists in the usage map (the handlers guard on `'guests' in
bot.usage`); for an allow-listed user the pooled record is never mutated. -/
theorem c8_guest_pooling (cfg : UCfg) (usage : Usage) (uid : Nat) (size : PyStr)
    (len secs tokens vtokens : Nat)
    (hku : hasKey usage (.user uid) = true) :
    ((pySplit cfg.allowed_user_ids ',').contains (pyStr uid) = false →
      hasKey usage .guests = true →
      pooledOk (image_record_usage cfg usage uid size) usage uid
        (.imageRequest size cfg.image_prices) ∧
      pooledOk (tts_record_usage cfg usage uid len) usage uid
        (.ttsRequest len cfg.tts_model cfg.tts_prices) ∧
      pooledOk (transcribe_record_seconds cfg usage uid secs) usage uid
        (.transcriptionSeconds secs cfg.transcription_price) ∧
      pooledOk (transcribe_record_chat_tokens cfg usage uid tokens) usage uid
        (.chatTokens tokens cfg.token_price) ∧
      pooledOk (vision_record_usage cfg usage uid vtokens) usage uid
        (.visionTokens vtokens cfg.vision_token_price)) ∧
    ((pySplit cfg.allowed_user_ids ',').contains (pyStr uid) = true →
      pooledSkip (image_record_usage cfg usage uid size) usage ∧
      pooledSkip (tts_record_usage cfg usage uid len) usage ∧
      pooledSkip (transcribe_record_seconds cfg usage uid secs) usage ∧
      pooledSkip (transcribe_record_chat_tokens cfg usage uid tokens) usage ∧
      pooledSkip (vision_record_usage cfg usage uid vtokens) usage) := by
  constructor
  · intro hna hg
    exact ⟨(guest_pooled_record_spec cfg usage uid _ hku).1 hna hg,
      (guest_pooled_record_spec cfg usage uid _ hku).1 hna hg,
      (guest_pooled_record_spec cfg usage uid _ hku).1 hna hg,
      (guest_pooled_record_spec cfg usage uid _ hku).1 hna hg,
      (guest_pooled_record_spec cfg usage uid _ hku).1 hna hg⟩
  · intro ha
    exact ⟨(guest_pooled_record_spec cfg usage uid _ hku).2 ha,
      (guest_pooled_record_spec cfg usage uid _ hku).2 ha,
      (guest_pooled_record_spec cfg usage uid _ hku).2 ha,
      (guest_pooled_record_spec cfg usage uid _ hku).2 ha,
      (guest_pooled_record_spec cfg usage uid _ hku).2 ha⟩

/-- C8 amended-claim witness: guest user 7 with a pooled record present, and
allow-listed user 1. -/
theorem c8_guest_pooling_witness :
    (pooledOk (image_record_usage cfgPool [(UKey.user 7, []), (UKey.guests, [])] 7
        (pystr "256x256")) [(UKey.user 7, []), (UKey.guests, [])] 7
        (.imageRequest (pystr "256x256") cfgPool.image_prices) ∧
      pooledOk (tts_record_usage cfgPool [(UKey.user 7, []), (UKey.guests, [])] 7 11)
        [(UKey.user 7, []), (UKey.guests, [])] 7
        (.ttsRequest 11 cfgPool.tts_model cfgPool.tts_prices) ∧
      pooledOk (transcribe_record_seconds cfgPool [(UKey.user 7, []), (UKey.guests, [])] 7 30)
        [(UKey.user 7, []), (UKey.guests, [])] 7
        (.transcriptionSeconds 30 cfgPool.transcription_price) ∧
      pooledOk (transcribe_record_chat_tokens cfgPool
        [(UKey.user 7, []), (UKey.guests, [])] 7 40)
        [(UKey.user 7, []), (UKey.guests, [])] 7 (.chatTokens 40 cfgPool.token_price) ∧
      pooledOk (vision_record_usage cfgPool [(UKey.user 7, []), (UKey.guests, [])] 7 50)
        [(UKey.user 7, []), (UKey.guests, [])] 7
        (.visionTokens 50 cfgPool.vision_token_price)) ∧
    (pooledSkip (image_record_usage cfgPool [(UKey.user 1, []), (UKey.guests, [])] 1
        (pystr "256x256")) [(UKey.user 1, []), (UKey.guests, [])] ∧
      pooledSkip (tts_record_usage cfgPool [(UKey.user 1, []), (UKey.guests, [])] 1 11)
        [(UKey.user 1, []), (UKey.guests, [])] ∧
      pooledSkip (transcribe_record_seconds cfgPool
        [(UKey.user 1, []), (UKey.guests, [])] 1 30) [(UKey.user 1, []), (UKey.guests, [])] ∧
      pooledSkip (transcribe_record_chat_tokens cfgPool
        [(UKey.user 1, []), (UKey.guests, [])] 1 40) [(UKey.user 1, []), (UKey.guests, [])] ∧
      pooledSkip (vision_record_usage cfgPool [(UKey.user 1, []), (UKey.guests, [])] 1 50)
        [(UKey.user 1, []), (UKey.guests, [])]) :=
  ⟨(c8_guest_pooling cfgPool [(UKey.user 7, []), (UKey.guests, [])] 7 (pystr "256x256")
      11 30 40 50 (by decide)).1 (by decide) (by decide),
    (c8_guest_pooling cfgPool [(UKey.user 1, []), (UKey.guests, [])] 1 (pystr "256x256")
      11 30 40 50 (by decide)).2 (by decide)⟩

/-- Python runtime errors escaping a handler body. -/
inductive PyErr
  | unboundLocal
  | keyError
  deriving DecidableEq, Repr

/-- Outcomes of the vision handler's download/re-encode/interpret pipeline. -/
structure VisEnv where
  download_ok : Bool
  reencode_ok : Bool
  interpret_result : Except Unit (PyStr × Nat)
  cfg : UCfg

/-- The vision handler's `_execute` on the non-streaming path
(src/bot/message_handlers.py, lines 184-348 with `config['stream']` false):
download failure replies and returns; a re-encode failure replies but falls
through; the user's usage record is initialized; then the blocking
`interpret_image` call either succeeds (the Markdown/plain reply fallback
chain is abstracted to one send) and assigns `total_tokens`, or raises — in
which case the localized failure is sent and the recording step of line 344
reads the never-assigned local `total_tokens`, raising an unbound-variable
error that escapes the handler body before any usage is recorded. -/
def visionExecuteNonStream (env : VisEnv) (usage : Usage) (uid : Nat) :
    Usage × List BAction × Option PyErr :=
  if ¬ env.download_ok then (usage, [BAction.notice .media_download_fail], none)
  else
    let acts0 := if ¬ env.reencode_ok then [BAction.notice .media_type_fail] else []
    let usage := usageInit usage uid
    match env.interpret_result with
    | .ok (interpretation, total_tokens) =>
        let acts := acts0 ++ [BAction.sendMessage interpretation true]
        match vision_record_usage env.cfg usage uid total_tokens with
        | .ok u2 => (u2, acts, none)
        | .error _ => (usage, acts, some .keyError)
    | .error _ =>
        (usage, acts0 ++ [BAction.notice .vision_fail], some .unboundLocal)

/-- An absent key looks up to nothing. -/
theorem lookupU_of_not_hasKey (u : Usage) (k : UKey) (h : hasKey u k = false) :
    lookupU u k = none := by
  induction u with
  | nil => rfl
  | cons p u ih =>
      simp only [hasKey, List.any_cons, Bool.or_eq_false_iff] at h
      have hp : ¬ p.1 = k := by simpa using h.1
      simp [lookupU, hp, ih (by simpa [hasKey] using h.2)]

/-- Appending a fresh binding for a different key does not change a lookup. -/
theorem lookupU_append_ne (u : Usage) (k k2 : UKey) (v : List UEvent) (hne : k2 ≠ k) :
    lookupU (u ++ [(k2, v)]) k = lookupU u k := by
  induction u with
  | nil => simp [lookupU, hne]
  | cons p u ih =>
      by_cases hp : p.1 = k <;> simp [lookupU, hp, ih]

/-- Appending a binding for a previously absent key makes it found. -/
theorem lookupU_append_found (u : Usage) (k : UKey) (v : List UEvent)
    (h : lookupU u k = none) :
    lookupU (u ++ [(k, v)]) k = some v := by
  induction u with
  | nil => simp [lookupU]
  | cons p u ih =>
      by_cases hp : p.1 = k
      · simp [lookupU, hp] at h
      · simp [lookupU, hp] at h ⊢
        exact ih h

/-- Initializing a user's record never touches the pooled guests record. -/
theorem lookupU_usageInit_guests (u : Usage) (uid : Nat) :
    lookupU (usageInit u uid) .guests = lookupU u .guests := by
  unfold usageInit
  split
  · rfl
  · exact lookupU_append_ne u .guests (.user uid) [] (by simp)

/-- C10: in the vision handler's non-streaming path, when the
image-interpretation backend call raises, the exception is caught and the
localized failure message is sent, but the recording step still runs, reads
the unassigned `total_tokens` and raises an unbound-variable error escaping
the handler — and no vision-token usage event is recorded for the user or
the guests record (the usage map is left exactly as the mere record
initialization produced it). -/
theorem c10_vision_unbound_total_tokens (env : VisEnv) (usage : Usage) (uid : Nat)
    (hd : env.download_ok = true) (hint : env.interpret_result = .error ()) :
    visionExecuteNonStream env usage uid =
      (usageInit usage uid,
        (if ¬ env.reencode_ok then [BAction.notice .media_type_fail] else []) ++
          [BAction.notice .vision_fail], some .unboundLocal) ∧
    BAction.notice .vision_fail ∈ (visionExecuteNonStream env usage uid).2.1 ∧
    lookupU (visionExecuteNonStream env usage uid).1 .guests = lookupU usage .guests ∧
    (∀ events, lookupU usage (.user uid) = some events →
      lookupU (visionExecuteNonStream env usage uid).1 (.user uid) = some events) ∧
    (hasKey usage (.user uid) = false →
      lookupU (visionExecuteNonStream env usage uid).1 (.user uid) = some []) := by
  have hrun : visionExecuteNonStream env usage uid =
      (usageInit usage uid,
        (if ¬ env.reencode_ok then [BAction.notice .media_type_fail] else []) ++
          [BAction.notice .vision_fail], some .unboundLocal) := by
    simp [visionExecuteNonStream, hd, hint]
  refine ⟨hrun, by rw [hrun]; simp, ?_, ?_, ?_⟩
  · rw [hrun]
    exact lookupU_usageInit_guests usage uid
  · intro events hev
    rw [hrun]
    unfold usageInit
    by_cases hk : hasKey usage (.user uid) = true
    · simp [hk, hev]
    · have hnone := lookupU_of_not_hasKey usage (.user uid) (by simpa using hk)
      rw [hnone] at hev
      exact absurd hev (by simp)
  · intro hnk
    rw [hrun]
    unfold usageInit
    rw [if_neg (by simp [hnk])]
    exact lookupU_append_found usage (.user uid) [] (lookupU_of_not_hasKey usage _ hnk)

/-- C10 witness: user 7 with an empty record, interpretation raising. -/
theorem c10_vision_unbound_total_tokens_witness :
    visionExecuteNonStream
      { download_ok := true, reencode_ok := true, interpret_result := .error (),
        cfg := cfgPool } [(UKey.user 7, [])] 7 =
      (usageInit [(UKey.user 7, [])] 7, [BAction.notice .vision_fail],
        some .unboundLocal) ∧
    BAction.notice .vision_fail ∈ (visionExecuteNonStream
      { download_ok := true, reencode_ok := true, interpret_result := .error (),
        cfg := cfgPool } [(UKey.user 7, [])] 7).2.1 ∧
    lookupU (visionExecuteNonStream
      { download_ok := true, reencode_ok := true, interpret_result := .error (),
        cfg := cfgPool } [(UKey.user 7, [])] 7).1 UKey.guests =
      lookupU [(UKey.user 7, [])] UKey.guests ∧
    lookupU (visionExecuteNonStream
      { download_ok := true, reencode_ok := true, interpret_result := .error (),
        cfg := cfgPool } [(UKey.user 7, [])] 7).1 (UKey.user 7) = some [] :=
  by
    have h := c10_vision_unbound_total_tokens
      { download_ok := true, reencode_ok := true, interpret_result := .error (),
        cfg := cfgPool } [(UKey.user 7, [])] 7 rfl rfl
    exact ⟨by simpa using h.1, h.2.1, h.2.2.1, h.2.2.2.1 [] (by rfl)⟩

/-- Opening brace character (written by code point). -/
def obraceC : Char := Char.ofNat 123

/-- Closing brace character (written by code point). -/
def cbraceC : Char := Char.ofNat 125

/-- JSON values exchanged with extensions, to the nesting depth the
dispatcher itself manipulates. -/
inductive JsonV
  | null
  | jbool (b : Bool)
  | num (n : Int)
  | str (s : PyStr)
  | strList (xs : List PyStr)
  | objStr (fields : List (PyStr × PyStr))
  deriving DecidableEq, Repr

/-- A double-quoted JSON string literal (escaping not modelled). -/
def jsonString (s : PyStr) : PyStr := '"' :: s ++ ['"']

/-- `json.dumps` on the modelled JSON values. -/
def jsonDumps : JsonV → PyStr
  | .null => pystr "null"
  | .jbool true => pystr "true"
  | .jbool false => pystr "false"
  | .num n => (toString n).data
  | .str s => jsonString s
  | .strList xs => '[' :: List.intercalate (pystr ", ") (xs.map jsonString) ++ [']']
  | .objStr fs =>
      obraceC ::
        List.intercalate (pystr ", ")
          (fs.map fun kv => jsonString kv.1 ++ (':' :: ' ' :: jsonString kv.2)) ++ [cbraceC]

/-- Keyword arguments produced by `json.loads` on the arguments string. -/
abbrev KwArgs := List (PyStr × JsonV)

/-- An activated extension: its declared callable-function names (from
`get_spec`) and its `execute` operation (the helper handle passed through by
the dispatcher is not modelled). -/
structure PluginM where
  specs : List PyStr
  execute : PyStr → KwArgs → JsonV

/-- `PluginManager.__get_plugin_by_function_name`
(src/bot/plugin_manager.py, lines 62-64): the first activated extension
declaring the name. -/
def get_plugin_by_function_name (plugins : List PluginM) (function_name : PyStr) :
    Option PluginM :=
  plugins.find? (fun plugin => plugin.specs.contains function_name)

/-- The structured error object returned for an undeclared function name
(src/bot/plugin_manager.py, line 50). -/
def functionNotFoundError (function_name : PyStr) : JsonV :=
  .objStr [(pystr "error", pystr "Function " ++ function_name ++ pystr " not found")]

/-- `PluginManager.call_function` (src/bot/plugin_manager.py, lines 44-51):
dispatch the named function with the JSON-parsed arguments as keyword
arguments, JSON-encoding the result; an undeclared name yields the JSON
error object.  `loads` stands for the standard library `json.loads`. -/
def call_function (loads : PyStr → KwArgs) (plugins : List PluginM)
    (function_name : PyStr) (arguments : PyStr) : PyStr :=
  match get_plugin_by_function_name plugins function_name with
  | none => jsonDumps (functionNotFoundError function_name)
  | some plugin => jsonDumps (plugin.execute function_name (loads arguments))

/-- Lookup finds the unique declaring extension. -/
theorem find_unique_declaring (fn : PyStr) (preP postP : List PluginM) (p : PluginM)
    (hp : p.specs.contains fn = true)
    (hpre : ∀ q ∈ preP, q.specs.contains fn = false) :
    get_plugin_by_function_name (preP ++ p :: postP) fn = some p := by
  induction preP with
  | nil =>
      simp only [List.nil_append, get_plugin_by_function_name]
      exact List.find?_cons_of_pos _ hp
  | cons q qs ih =>
      simp only [get_plugin_by_function_name, List.cons_append] at ih ⊢
      rw [List.find?_cons_of_neg _ (by simpa using hpre q (by simp))]
      exact ih (fun r hr => hpre r (by simp [hr]))

/-- Lookup fails when no activated extension declares the name. -/
theorem find_none_declaring (fn : PyStr) (plugins : List PluginM)
    (h : ∀ q ∈ plugins, q.specs.contains fn = false) :
    get_plugin_by_function_name plugins fn = none := by
  induction plugins with
  | nil => rfl
  | cons q qs ih =>
      simp only [get_plugin_by_function_name] at ih ⊢
      rw [List.find?_cons_of_neg _ (by simpa using h q (by simp))]
      exact ih (fun r hr => h r (by simp [hr]))

/-- C9: calling `call_function` with a function name declared by exactly one
activated extension invokes that extension's execute operation with the
JSON-parsed arguments as keyword arguments and returns its result
JSON-encoded; calling it with a name declared by no activated extension
returns the structured JSON error object — a value independent of every
extension's execute operation, so none is invoked. -/
theorem c9_extension_dispatch (loads : PyStr → KwArgs) (preP postP : List PluginM)
    (p : PluginM) (fn args : PyStr)
    (hp : p.specs.contains fn = true)
    (hpre : ∀ q ∈ preP, q.specs.contains fn = false)
    (_hpost : ∀ q ∈ postP, q.specs.contains fn = false) :
    call_function loads (preP ++ p :: postP) fn args =
      jsonDumps (p.execute fn (loads args)) ∧
    (∀ plugins : List PluginM, (∀ q ∈ plugins, q.specs.contains fn = false) →
      call_function loads plugins fn args = jsonDumps (functionNotFoundError fn)) := by
  constructor
  · simp [call_function, find_unique_declaring fn preP postP p hp hpre]
  · intro plugins hnone
    simp [call_function, find_none_declaring fn plugins hnone]

/-- A concrete extension declaring one function "weather". -/
def pluginWeather : PluginM :=
  { specs := [pystr "weather"], execute := fun _ _ => .str (pystr "sunny") }

/-- A concrete extension declaring an unrelated function. -/
def pluginOther : PluginM :=
  { specs := [pystr "translate"], execute := fun _ _ => .str (pystr "bonjour") }

/-- C9 witness: with the activated list [other, weather], "weather" is
dispatched to the weather extension and JSON-encoded; a name nobody declares
yields the error object. -/
theorem c9_extension_dispatch_witness :
    pluginWeather.specs.contains (pystr "weather") = true ∧
    (call_function (fun _ => []) ([pluginOther] ++ pluginWeather :: []) (pystr "weather")
        (pystr "") =
      jsonDumps (pluginWeather.execute (pystr "weather") ((fun _ => ([] : KwArgs)) (pystr ""))) ∧
    (∀ plugins : List PluginM,
      (∀ q ∈ plugins, q.specs.contains (pystr "weather") = false) →
      call_function (fun _ => []) plugins (pystr "weather") (pystr "") =
        jsonDumps (functionNotFoundError (pystr "weather")))) :=
  ⟨by decide,
    c9_extension_dispatch (fun _ => []) [pluginOther] [] pluginWeather (pystr "weather")
      (pystr "") (by decide) (by decide) (by decide)⟩
